import Mathlib

/-!
# go-musicfox: the player of `pkg/ui/player.go`

A shallow embedding of the playback part of `pkg/ui/player.go`: the playlist,
the cursor `curSongIndex`, the play mode, the error counter `playErrCount`,
`PlaySong`, `NextSong`, `PreviousSong`, `SetPlayMode`, `Intelligence` and
`lyricListener`.

Conventions of the embedding.

* Go `int` values are `Int`; nothing here comes near the 64-bit range.
* `PlayMode` is a Go string type, so it is a `String` here.
* A Go run-time panic (index out of range, `rand.Intn` with a non-positive
  argument) is `Fault.panic`, carrying the player state at the panic.
* The functions call one another recursively (`PlaySong` retries through
  `NextSong` / `PreviousSong`, these extend the list through `Intelligence`,
  which plays through `PlaySong`).  They are defined by recursion on a fuel
  argument; `Fault.outOfFuel` is not a behaviour of the program.
* Everything the file calls but does not define (remote services, the random
  source, the menu movements and hooks of the user interface) is a field of
  `World`.  A remote or random call takes the number of earlier calls of its
  kind, so a `World` describes an arbitrary behaviour over time.  The menu
  movements and hooks of the boundary blocks may change the playlist and the
  cursor.
* Calls into the audio engine and entries into `PlaySong` are appended to
  `Player.trace`.
-/

namespace MusicFox

/-- The fields of `structs.Song` that the player reads. -/
structure Song where
  Id : Int
  Name : String
  Duration : Int
deriving DecidableEq, Repr

/-- The type `PlayDirection` (lines 25-31). -/
inductive PlayDirection where
  | DurationNext
  | DurationPrev
deriving DecidableEq, Repr

/-- The type `PlayMode`, a Go string type (line 34). -/
abbrev PlayMode := String

/-- List loop (line 37). -/
def PmListLoop : PlayMode := "列表"
/-- Play in order (line 38). -/
def PmOrder : PlayMode := "顺序"
/-- Single loop (line 39). -/
def PmSingleLoop : PlayMode := "单曲"
/-- Random (line 40). -/
def PmRandom : PlayMode := "随机"
/-- Intelligent mode (line 41). -/
def PmIntelligent : PlayMode := "心动"

/-- A `*PlaylistDetailMenu`: the fields `Intelligence` reads. -/
structure PlaylistDetailMenu where
  PlaylistId : Int
  songs : List Song
deriving DecidableEq, Repr

/-- What the player observes of an `IMenu` value: `GetMenuKey()`,
`MenuData().([]structs.Song)` (`none` when the assertion fails) and the type
assertion `menu.(*PlaylistDetailMenu)` (`none` when it fails). -/
structure IMenu where
  MenuKey : String
  MenuData : Option (List Song)
  detail : Option PlaylistDetailMenu
deriving DecidableEq, Repr

/-- The fields of `NeteaseModel` that the player reads or writes.  The page
size is a positive constant of the menu layout (its declaration is not part of
this file), hence `ℕ+`. -/
structure NeteaseModel where
  menu : IMenu
  selectedIndex : Int
  doubleColumn : Bool
  menuPageSize : ℕ+
  menuCurPage : Int
  user : Option Int
deriving DecidableEq

/-- Result classes of `utils.CheckUserInfo` and `utils.CheckCode`. -/
inductive CodeType where
  | Success
  | NeedLogin
  | Other
deriving DecidableEq, Repr

/-- Audio formats of the engine (`player.Mp3`, `player.Flac`). -/
inductive SongType where
  | Mp3
  | Flac
deriving DecidableEq, Repr

/-- Playback states of the audio engine. -/
inductive State where
  | Playing
  | Paused
  | Stopped
deriving DecidableEq, Repr

/-- Observable events: an entry into `PlaySong` (with the cursor at that
moment), the call `p.Paused()` and the call `p.Player.Play(...)`. -/
inductive Event where
  | playSong (index : Int) (song : Song) (direction : PlayDirection)
  | paused
  | play (songType : SongType) (url : String) (duration : Int)
deriving DecidableEq, Repr

/-- One parsed lyric line (`lyric.LRCFragment`). -/
structure LRCFragment where
  StartTimeMs : Int
  Content : String
deriving DecidableEq, Repr

/-- The lyric timer: the player only reads its fragments. -/
structure LRCTimer where
  fragments : List LRCFragment
deriving DecidableEq, Repr

/-- The `Player` struct (lines 54-79), with the engine state, the event trace
and the three call counters added. -/
structure Player where
  model : NeteaseModel
  playlist : List Song
  curSongIndex : Int
  curSong : Song
  playingMenuKey : String
  playingMenu : Option IMenu
  lrcTimer : Option LRCTimer
  lyrics : List String
  progressRamp : List String
  playErrCount : Int
  mode : PlayMode
  state : State
  trace : List Event
  urlCalls : Nat
  randCalls : Nat
  intelligenceCalls : Nat
deriving DecidableEq

/-- Why a run did not return. -/
inductive Fault where
  | panic (p : Player)
  | outOfFuel
deriving DecidableEq

deriving instance DecidableEq for Except

/-- Answer of `service.SongUrlService.SongUrl`, as `PlaySong` reads it: the
code, and the two `jsonparser.GetString` results (`none` when the parser
returns an error). -/
structure SongUrlResponse where
  code : Int
  url : Option String
  musicType : Option String
deriving DecidableEq, Repr

/-- What a menu movement or a boundary hook leaves behind.  These functions
receive the `*NeteaseModel` pointer, through which they reach the player: they
may change the menu model and, as the design notes of the spec have it
("optional Playlist mutation"), the playlist; the cursor is left open to them
as well. -/
structure BoundaryEffect where
  model : NeteaseModel
  playlist : List Song
  curSongIndex : Int
deriving DecidableEq

/-- Everything outside the file. -/
structure World where
  /-- The `n`-th call of `urlService.SongUrl()` for a song id. -/
  SongUrl : Nat → Int → SongUrlResponse
  /-- The raw value behind the `n`-th call of `rand.Intn`. -/
  rand : Nat → Nat
  /-- The `n`-th call of `PlaymodeIntelligenceList()` for a song id and a
  playlist id: the code and `utils.GetIntelligenceSongs(response)`. -/
  PlaymodeIntelligenceList : Nat → Int → Int → Int × List Song
  CheckCode : Int → CodeType
  CheckUserInfo : Option Int → CodeType
  /-- The login flow `NeedLoginHandle(model, callback)`; the flag tells whether a
  callback was passed. -/
  NeedLoginHandle : NeteaseModel → Bool → NeteaseModel
  /-- The menu movements of the boundary blocks (lines 410-415, 453-458). -/
  moveRight : Player → BoundaryEffect
  moveDown : Player → BoundaryEffect
  moveUp : Player → BoundaryEffect
  moveLeft : Player → BoundaryEffect
  nextPage : NeteaseModel → NeteaseModel
  prePage : NeteaseModel → NeteaseModel
  /-- The method `BottomOutHook()` of a menu: `none` is a `nil` hook. -/
  BottomOutHook : IMenu → Option (Player → BoundaryEffect)
  /-- The method `TopOutHook()` of a menu: `none` is a `nil` hook. -/
  TopOutHook : IMenu → Option (Player → BoundaryEffect)

/-- Go `rand.Intn(n)`: panics (`none`) for `n ≤ 0`, otherwise a value of
`[0, n)`; every value of the range is reached by some raw value. -/
def Intn (raw : Nat) (n : Int) : Option Int :=
  if n ≤ 0 then none else some ((raw : Int) % n)

/-- Go slice indexing `xs[i]`: `none` stands for the run-time panic. -/
def index {α : Type} (xs : List α) (i : Int) : Option α :=
  if i < 0 then none else xs[i.toNat]?

/-- Go `strings.ToLower`, on the ASCII letters. -/
def ToLower (s : String) : String := String.mk (s.data.map Char.toLower)

/-- The length `len(p.playlist)` as a Go `int`. -/
def Player.len (p : Player) : Int := (p.playlist.length : Int)

/-- Method `InPlayingMenu` (lines 295-297). -/
def InPlayingMenu (p : Player) : Bool :=
  p.model.menu.MenuKey == p.playingMenuKey

/-- Method `CompareWithCurPlaylist` (lines 300-314). -/
def CompareWithCurPlaylist (p : Player) (playlist : List Song) : Bool :=
  if playlist.length ≠ p.playlist.length then false
  else (List.range (min 20 playlist.length)).all fun i =>
    (playlist[i]?).map Song.Id == (p.playlist[i]?).map Song.Id

/-- Method `LocatePlayingSong` (lines 317-337). -/
def LocatePlayingSong (w : World) (p : Player) : Player :=
  match p.model.menu.MenuData with
  | none => p
  | some songs =>
    if !InPlayingMenu p || !CompareWithCurPlaylist p songs then p
    else
      let pageDelta : Int :=
        Int.tdiv p.curSongIndex (p.model.menuPageSize : Nat) - (p.model.menuCurPage - 1)
      let m : NeteaseModel :=
        if pageDelta > 0 then Nat.iterate w.nextPage pageDelta.toNat p.model
        else if pageDelta < 0 then Nat.iterate w.prePage (-pageDelta).toNat p.model
        else p.model
      { p with model := { m with selectedIndex := p.curSongIndex } }

/-- Modelled from the spec: `p.Paused()` is a method of the audio engine
(`player.Player`), which is not part of this file; the spec has the failure
branch "set PlaybackState=Paused locally".  The call is also traced. -/
def Paused (p : Player) : Player :=
  { p with state := State.Paused, trace := p.trace ++ [Event.paused] }

/-- The test of line 365 on a code-200 answer: a parser error on `url` or on
`type`, or a lower-cased type that is neither "mp3" nor "flac". -/
def unplayable (r : SongUrlResponse) : Bool :=
  r.url.isNone || r.musicType.isNone ||
    (ToLower (r.musicType.getD "") != "mp3" && ToLower (r.musicType.getD "") != "flac")

/-- The player after a menu movement or a boundary hook. -/
def Player.after (p : Player) (e : BoundaryEffect) : Player :=
  { p with model := e.model, playlist := e.playlist, curSongIndex := e.curSongIndex }

/-- The menu movement or hook of the boundary block of `NextSong`
(lines 410-420). -/
def bottomOut (w : World) (p : Player) : Player :=
  if InPlayingMenu p then
    if p.model.doubleColumn && Int.tmod p.curSongIndex 2 == 0 then
      p.after (w.moveRight p)
    else
      p.after (w.moveDown p)
  else
    match p.playingMenu with
    | none => p
    | some menu =>
      match w.BottomOutHook menu with
      | none => p
      | some bottomHook => p.after (bottomHook p)

/-- The menu movement or hook of the boundary block of `PreviousSong`
(lines 453-463). -/
def topOut (w : World) (p : Player) : Player :=
  if InPlayingMenu p then
    if p.model.doubleColumn && Int.tmod p.curSongIndex 2 == 0 then
      p.after (w.moveUp p)
    else
      p.after (w.moveLeft p)
  else
    match p.playingMenu with
    | none => p
    | some menu =>
      match w.TopOutHook menu with
      | none => p
      | some topHook => p.after (topHook p)

/-- The `switch p.mode` of `NextSong` (lines 423-437).  `none` is the early
`return` of the `PmOrder` case; a `rand.Intn` panic is a fault. -/
def nextSwitch (w : World) (p : Player) : Except Fault (Option Player) :=
  if p.mode = PmListLoop ∨ p.mode = PmIntelligent then
    let q := { p with curSongIndex := p.curSongIndex + 1 }
    if q.curSongIndex > q.len - 1 then pure (some { q with curSongIndex := 0 })
    else pure (some q)
  else if p.mode = PmSingleLoop then pure (some p)
  else if p.mode = PmRandom then
    match Intn (w.rand p.randCalls) (p.len - 1) with
    | none => throw (Fault.panic p)
    | some i => pure (some { p with curSongIndex := i, randCalls := p.randCalls + 1 })
  else if p.mode = PmOrder then
    if p.curSongIndex ≥ p.len - 1 then pure none
    else pure (some { p with curSongIndex := p.curSongIndex + 1 })
  else pure (some p)

/-- The `switch p.mode` of `PreviousSong` (lines 466-480). -/
def prevSwitch (w : World) (p : Player) : Except Fault (Option Player) :=
  if p.mode = PmListLoop ∨ p.mode = PmIntelligent then
    let q := { p with curSongIndex := p.curSongIndex - 1 }
    if q.curSongIndex < 0 then pure (some { q with curSongIndex := q.len - 1 })
    else pure (some q)
  else if p.mode = PmSingleLoop then pure (some p)
  else if p.mode = PmRandom then
    match Intn (w.rand p.randCalls) (p.len - 1) with
    | none => throw (Fault.panic p)
    | some i => pure (some { p with curSongIndex := i, randCalls := p.randCalls + 1 })
  else if p.mode = PmOrder then
    if p.curSongIndex ≤ 0 then pure none
    else pure (some { p with curSongIndex := p.curSongIndex - 1 })
  else pure (some p)

/-- The state in which `PlaySong` reads the resolver answer (lines 341-357):
the entry is traced, `curSong` is set and the menu is located.  The loading
indicator and the snapshot written to storage are not part of the state. -/
def playSongEnter (w : World) (p : Player) (song : Song) (direction : PlayDirection) :
    Player :=
  let p1 := { p with trace := p.trace ++ [Event.playSong p.curSongIndex song direction] }
  let p2 := { p1 with curSong := song }
  let p3 := LocatePlayingSong w p2
  { p3 with urlCalls := p3.urlCalls + 1 }

/-- The failure branch of `PlaySong` up to the counter test (lines 366-368). -/
def playSongFail (p : Player) : Player :=
  let p1 := Paused p
  let p2 := { p1 with progressRamp := [] }
  { p2 with playErrCount := p2.playErrCount + 1 }

/-- The success branch of `PlaySong` (lines 381-400).  The detached
`updateLyric` and the desktop notification are not part of the state. -/
def playSongOk (p : Player) (song : Song) (url musicType : String) : Player :=
  let p1 :=
    if musicType = "mp3" then
      { p with trace := p.trace ++ [Event.play SongType.Mp3 url song.Duration] }
    else if musicType = "flac" then
      { p with trace := p.trace ++ [Event.play SongType.Flac url song.Duration] }
    else p
  { p1 with playErrCount := 0 }

mutual

/-- Method `PlaySong` (lines 340-401).  The returned `error` is dropped by every
caller and is not modelled. -/
def PlaySong (w : World) : Nat → Player → Song → PlayDirection → Except Fault Player
  | 0, _, _, _ => throw Fault.outOfFuel
  | fuel + 1, p, song, direction =>
    let response := w.SongUrl p.urlCalls song.Id
    let p := playSongEnter w p song direction
    if response.code ≠ 200 then pure p
    else if unplayable response then
      let p := playSongFail p
      if p.playErrCount ≥ 3 then pure p
      else
        match direction with
        | PlayDirection.DurationPrev => PreviousSong w fuel p
        | PlayDirection.DurationNext => NextSong w fuel p
    else
      pure (playSongOk p song (response.url.getD "") (ToLower (response.musicType.getD "")))

/-- Method `NextSong` (lines 404-444). -/
def NextSong (w : World) : Nat → Player → Except Fault Player
  | 0, _ => throw Fault.outOfFuel
  | fuel + 1, p => do
    let p ←
      if p.playlist.length = 0 ∨ p.curSongIndex ≥ p.len - 1 then do
        let p ← if p.mode = PmIntelligent then Intelligence w fuel p true else pure p
        pure (bottomOut w p)
      else pure p
    match ← nextSwitch w p with
    | none => pure p
    | some p =>
      if p.curSongIndex > p.len - 1 then pure p
      else
        match index p.playlist p.curSongIndex with
        | none => throw (Fault.panic p)
        | some song => PlaySong w fuel p song PlayDirection.DurationNext

/-- Method `PreviousSong` (lines 447-487). -/
def PreviousSong (w : World) : Nat → Player → Except Fault Player
  | 0, _ => throw Fault.outOfFuel
  | fuel + 1, p => do
    let p ←
      if p.playlist.length = 0 ∨ p.curSongIndex ≥ p.len - 1 then do
        let p ← if p.mode = PmIntelligent then Intelligence w fuel p true else pure p
        pure (topOut w p)
      else pure p
    match ← prevSwitch w p with
    | none => pure p
    | some p =>
      if p.curSongIndex < 0 then pure p
      else
        match index p.playlist p.curSongIndex with
        | none => throw (Fault.panic p)
        | some song => PlaySong w fuel p song PlayDirection.DurationPrev

/-- Method `Intelligence` (lines 575-618).  `NeedLoginHandle` opens the login page;
its callback runs after a later login and is not part of this call. -/
def Intelligence (w : World) : Nat → Player → Bool → Except Fault Player
  | 0, _, _ => throw Fault.outOfFuel
  | fuel + 1, p, appendMode =>
    match p.model.menu.detail with
    | none => pure p
    | some playlist =>
      if p.model.selectedIndex ≥ playlist.songs.length then pure p
      else if w.CheckUserInfo p.model.user = CodeType.NeedLogin then
        pure { p with model := w.NeedLoginHandle p.model false }
      else
        match index playlist.songs p.model.selectedIndex with
        | none => throw (Fault.panic p)
        | some selected =>
          let answer :=
            w.PlaymodeIntelligenceList p.intelligenceCalls selected.Id playlist.PlaylistId
          let p := { p with intelligenceCalls := p.intelligenceCalls + 1 }
          if w.CheckCode answer.1 = CodeType.NeedLogin then
            pure { p with model := w.NeedLoginHandle p.model true }
          else if w.CheckCode answer.1 ≠ CodeType.Success then pure p
          else
            let songs := answer.2
            let p :=
              if appendMode then
                { p with playlist := p.playlist ++ songs, curSongIndex := p.curSongIndex + 1 }
              else
                { p with playlist := selected :: songs, curSongIndex := 0 }
            let p := { p with mode := PmIntelligent }
            let p := { p with playingMenuKey := "Intelligent" }
            match index p.playlist p.curSongIndex with
            | none => throw (Fault.panic p)
            | some song => PlaySong w fuel p song PlayDirection.DurationNext

end

/-- Method `SetPlayMode` (lines 490-512).  The mode written to storage and the
re-render request are not part of the state. -/
def SetPlayMode (p : Player) (playMode : PlayMode) : Player :=
  if playMode = "" then
    if p.mode = PmListLoop then { p with mode := PmOrder }
    else if p.mode = PmOrder then { p with mode := PmSingleLoop }
    else if p.mode = PmSingleLoop then { p with mode := PmRandom }
    else if p.mode = PmRandom then { p with mode := PmListLoop }
    else { p with mode := PmListLoop }
  else { p with mode := playMode }

/-- Modelled from the spec: `GetLRCFragment` of `lyric.LRCTimer` belongs to the
`lyric` package, which is not part of this file; the spec has the window hold
"neighboring fragments or empty string if out of range", so the lookup is
`nil` exactly outside the lyric track. -/
def LRCTimer.GetLRCFragment (t : LRCTimer) (i : Int) : Option LRCFragment :=
  index t.fragments i

/-- Go array assignment `p.lyrics[i] = s`. -/
def setLyric (p : Player) (i : Nat) (s : String) : Player :=
  { p with lyrics := p.lyrics.set i s }

/-- Method `lyricListener` (lines 521-544): a `nil` timer is a nil-pointer panic. -/
def lyricListener (p : Player) (content : String) (idx : Int) : Except Fault Player :=
  match p.lrcTimer with
  | none => throw (Fault.panic p)
  | some timer =>
    let curIndex : Nat := p.lyrics.length / 2
    let p := (List.range curIndex).foldl (fun (p : Player) (i : Nat) =>
      match timer.GetLRCFragment (idx - (curIndex : Int) + (i : Int)) with
      | some f => setLyric p i f.Content
      | none => setLyric p i "") p
    let p := setLyric p curIndex content
    let p := (List.range (p.lyrics.length - curIndex)).foldl (fun (p : Player) (i : Nat) =>
      match timer.GetLRCFragment (idx + (i : Int)) with
      | some f => setLyric p (curIndex + i) f.Content
      | none => setLyric p (curIndex + i) "") p
    pure p

/-- Number of entries into `PlaySong` recorded in a trace. -/
def attempts (t : List Event) : Nat :=
  t.countP fun e => match e with
    | Event.playSong _ _ _ => true
    | _ => false

/-- The state a run ended in, on a return or on a panic. -/
def final : Except Fault Player → Option Player
  | Except.ok p => some p
  | Except.error (Fault.panic p) => some p
  | Except.error Fault.outOfFuel => none

/-! ## Sample data -/

/-- Sample song A (200 s). -/
def songA : Song := ⟨1, "A", 200⟩
/-- Sample song B (150 s). -/
def songB : Song := ⟨2, "B", 150⟩
/-- Sample song C. -/
def songC : Song := ⟨3, "C", 100⟩
/-- Sample song D. -/
def songD : Song := ⟨4, "D", 100⟩

/-- A menu that is not a playlist detail view. -/
def mainMenu : IMenu := ⟨"main", none, none⟩

/-- A playlist detail view showing song A, playlist id 7. -/
def detailMenu : IMenu := ⟨"detail", some [songA], some ⟨7, [songA]⟩⟩

/-- A user interface on the given menu, first entry selected, user logged in. -/
def mkModel (menu : IMenu) : NeteaseModel := ⟨menu, 0, false, 10, 1, some 1⟩

/-- A player with the given menu, playlist, cursor and mode, error counter 0
and an empty trace. -/
def mkPlayer (menu : IMenu) (playlist : List Song) (cur : Int) (mode : PlayMode) : Player :=
  { model := mkModel menu, playlist := playlist, curSongIndex := cur, curSong := songA,
    playingMenuKey := "playing", playingMenu := none, lrcTimer := none,
    lyrics := ["", "", "", "", ""], progressRamp := [], playErrCount := 0, mode := mode,
    state := State.Playing, trace := [], urlCalls := 0, randCalls := 0,
    intelligenceCalls := 0 }

/-- A menu movement that changes nothing. -/
def still (p : Player) : BoundaryEffect := ⟨p.model, p.playlist, p.curSongIndex⟩

/-- A boundary hook that loads one more song, B, into the playlist. -/
def loadB (p : Player) : BoundaryEffect := ⟨p.model, p.playlist ++ [songB], p.curSongIndex⟩

/-- A world with the given resolver, random source and recommendation service;
codes 200 and 301 are success and need-login, the menu movements do nothing. -/
def mkWorld (url : Nat → Int → SongUrlResponse) (rand : Nat → Nat)
    (recommend : Nat → Int → Int → Int × List Song) : World :=
  { SongUrl := url, rand := rand, PlaymodeIntelligenceList := recommend,
    CheckCode := fun c =>
      if c = 200 then CodeType.Success else if c = 301 then CodeType.NeedLogin
      else CodeType.Other,
    CheckUserInfo := fun u => if u.isSome then CodeType.Success else CodeType.NeedLogin,
    NeedLoginHandle := fun m _ => m, moveRight := still, moveDown := still, moveUp := still,
    moveLeft := still, nextPage := id, prePage := id, BottomOutHook := fun _ => none,
    TopOutHook := fun _ => none }

/-- A playable answer. -/
def good : SongUrlResponse := ⟨200, some "u", some "MP3"⟩
/-- A code-200 answer with a format that is not accepted. -/
def bad : SongUrlResponse := ⟨200, some "u", some "ogg"⟩
/-- A non-200 answer. -/
def gone : SongUrlResponse := ⟨404, none, none⟩

/-- A lyric track of three lines. -/
def sampleTimer : LRCTimer := ⟨[⟨0, "la"⟩, ⟨1000, "li"⟩, ⟨2000, "lu"⟩]⟩

/-- A player whose lyric timer holds `sampleTimer`. -/
def lyricPlayer : Player :=
  { mkPlayer mainMenu [songA] 0 PmListLoop with lrcTimer := some sampleTimer }

/-- A world whose resolver rejects every track (code 200, format "ogg") and
whose recommendation service returns the songs B, C, D. -/
def wBad : World :=
  mkWorld (fun _ _ => bad) (fun _ => 0) (fun _ _ _ => (200, [songB, songC, songD]))

/-- A world whose resolver answers every track with code 404. -/
def wGone : World := mkWorld (fun _ _ => gone) (fun _ => 0) (fun _ _ _ => (200, []))

/-- A world whose resolver accepts every track, whose random source yields 1
and whose recommendation service returns the songs B, C. -/
def wGood : World :=
  mkWorld (fun _ _ => good) (fun _ => 1) (fun _ _ _ => (200, [songB, songC]))

/-- A world whose resolver accepts every track and whose recommendation
service returns an empty list. -/
def wEmpty : World := mkWorld (fun _ _ => good) (fun _ => 0) (fun _ _ _ => (200, []))

/-- The world `wGood` with menus whose boundary hooks load song B. -/
def wLoad : World :=
  { wGood with BottomOutHook := fun _ => some loadB, TopOutHook := fun _ => some loadB }

/-- A player that plays from a menu other than the one on display, so that the
boundary blocks call the hooks of the playing menu. -/
def hookedPlayer (playlist : List Song) (cur : Int) (mode : PlayMode) : Player :=
  { mkPlayer mainMenu playlist cur mode with playingMenu := some detailMenu }

/-! ## Proof-side views of `NextSong` and `PreviousSong` -/

/-- What `Intelligence` does before it plays (lines 576-616): the state it
returns in when it gives up (`none` in place of the song), or the state with
the extended or replaced playlist and the song under the cursor that it hands
to `PlaySong`. -/
def extension (w : World) (p : Player) (appendMode : Bool) :
    Except Fault (Player × Option Song) :=
  match p.model.menu.detail with
  | none => Except.ok (p, none)
  | some playlist =>
    if p.model.selectedIndex ≥ playlist.songs.length then Except.ok (p, none)
    else if w.CheckUserInfo p.model.user = CodeType.NeedLogin then
      Except.ok ({ p with model := w.NeedLoginHandle p.model false }, none)
    else
      match index playlist.songs p.model.selectedIndex with
      | none => Except.error (Fault.panic p)
      | some selected =>
        let answer :=
          w.PlaymodeIntelligenceList p.intelligenceCalls selected.Id playlist.PlaylistId
        let p := { p with intelligenceCalls := p.intelligenceCalls + 1 }
        if w.CheckCode answer.1 = CodeType.NeedLogin then
          Except.ok ({ p with model := w.NeedLoginHandle p.model true }, none)
        else if w.CheckCode answer.1 ≠ CodeType.Success then Except.ok (p, none)
        else
          let songs := answer.2
          let p :=
            if appendMode then
              { p with playlist := p.playlist ++ songs, curSongIndex := p.curSongIndex + 1 }
            else
              { p with playlist := selected :: songs, curSongIndex := 0 }
          let p := { p with mode := PmIntelligent }
          let p := { p with playingMenuKey := "Intelligent" }
          match index p.playlist p.curSongIndex with
          | none => Except.error (Fault.panic p)
          | some song => Except.ok (p, some song)

/-- No Intelligent extension takes place in `NextSong` / `PreviousSong` from
state `p`: if the mode is Intelligent and the boundary test of lines 405 / 448
holds, the call `Intelligence(true)` gives up (no playlist detail menu, a
selection out of range, a login that is needed, or a code that is not a
success) and so leaves playlist and cursor alone. -/
def noExtension (w : World) (p : Player) : Prop :=
  p.mode = PmIntelligent → (p.playlist.length = 0 ∨ p.curSongIndex ≥ p.len - 1) →
    ∃ q, extension w p true = Except.ok (q, none)

/-- The state in which `Intelligence(true)` returns when it gives up; the
state itself when the mode is not Intelligent (lines 406-408, 449-451). -/
def declined (w : World) (p : Player) : Player :=
  if p.mode = PmIntelligent then
    match extension w p true with
    | Except.ok (q, none) => q
    | _ => p
  else p

/-- The state on which the `switch` of `NextSong` runs when no Intelligent
extension takes place: the state after the boundary block (lines 405-421). -/
def nextPre (w : World) (p : Player) : Player :=
  if p.playlist.length = 0 ∨ p.curSongIndex ≥ p.len - 1 then bottomOut w (declined w p)
  else p

/-- The state on which the `switch` of `PreviousSong` runs when no Intelligent
extension takes place: the state after the boundary block (lines 448-464). -/
def prevPre (w : World) (p : Player) : Player :=
  if p.playlist.length = 0 ∨ p.curSongIndex ≥ p.len - 1 then topOut w (declined w p)
  else p

/-- The boundary block of `NextSong` / `PreviousSong`, when it runs, leaves the
playlist and the cursor of `p` as they were: `q` is the state after it. -/
def undisturbed (p q : Player) : Prop :=
  q.playlist = p.playlist ∧ q.curSongIndex = p.curSongIndex

/-- Either `nextPre` or `prevPre`, by direction. -/
def pre (w : World) (p : Player) : PlayDirection → Player
  | PlayDirection.DurationNext => nextPre w p
  | PlayDirection.DurationPrev => prevPre w p

/-- The part of `NextSong` from the `switch` on (lines 423-443). -/
def nextTail (w : World) (fuel : Nat) (p : Player) : Except Fault Player :=
  match nextSwitch w p with
  | Except.error e => Except.error e
  | Except.ok none => Except.ok p
  | Except.ok (some q) =>
    if q.curSongIndex > q.len - 1 then Except.ok q
    else
      match index q.playlist q.curSongIndex with
      | none => Except.error (Fault.panic q)
      | some song => PlaySong w fuel q song PlayDirection.DurationNext

/-- The part of `PreviousSong` from the `switch` on (lines 466-486). -/
def prevTail (w : World) (fuel : Nat) (p : Player) : Except Fault Player :=
  match prevSwitch w p with
  | Except.error e => Except.error e
  | Except.ok none => Except.ok p
  | Except.ok (some q) =>
    if q.curSongIndex < 0 then Except.ok q
    else
      match index q.playlist q.curSongIndex with
      | none => Except.error (Fault.panic q)
      | some song => PlaySong w fuel q song PlayDirection.DurationPrev

/-- Either `NextSong` or `PreviousSong`, by direction (the `switch` of lines 372-377). -/
def advance (w : World) (fuel : Nat) (p : Player) : PlayDirection → Except Fault Player
  | PlayDirection.DurationPrev => PreviousSong w fuel p
  | PlayDirection.DurationNext => NextSong w fuel p

/-- The track `NextSong` / `PreviousSong` is about to play when the mode is not
Intelligent: the state after the boundary block, the `switch` and the bounds
test, with the song under the cursor; `none` in place of the song is a
`return` without playing. -/
def target (w : World) (p : Player) : PlayDirection → Except Fault (Player × Option Song)
  | PlayDirection.DurationNext =>
    match nextSwitch w (nextPre w p) with
    | Except.error e => Except.error e
    | Except.ok none => Except.ok (nextPre w p, none)
    | Except.ok (some q) =>
      if q.curSongIndex > q.len - 1 then Except.ok (q, none)
      else
        match index q.playlist q.curSongIndex with
        | none => Except.error (Fault.panic q)
        | some song => Except.ok (q, some song)
  | PlayDirection.DurationPrev =>
    match prevSwitch w (prevPre w p) with
    | Except.error e => Except.error e
    | Except.ok none => Except.ok (prevPre w p, none)
    | Except.ok (some q) =>
      if q.curSongIndex < 0 then Except.ok (q, none)
      else
        match index q.playlist q.curSongIndex with
        | none => Except.error (Fault.panic q)
        | some song => Except.ok (q, some song)

/-- The cursor and the song of the last entry into `PlaySong` in a trace. -/
def lastAttempt : List Event → Option (Int × Song)
  | [] => none
  | Event.playSong i song _ :: t =>
    match lastAttempt t with
    | some r => some r
    | none => some (i, song)
  | Event.paused :: t => lastAttempt t
  | Event.play _ _ _ :: t => lastAttempt t

/-- The answer is a code-200 answer that line 365 rejects. -/
def rejected (r : SongUrlResponse) : Prop := r.code = 200 ∧ unplayable r = true

/-- The answer is playable: code 200 and line 365 lets it pass. -/
def playable (r : SongUrlResponse) : Prop := r.code = 200 ∧ unplayable r = false

/-- What a retry chain of at most `n` attempts leaves, for a run started in
state `p`: the run returns or panics in a state `q` with at most `n` more
entries into `PlaySong`; and if `n` is exactly the distance of the counter to
3, the next `n` resolver answers are rejected and `n` tracks were attempted,
then the run returns with the counter at 3 and the cursor on the track
attempted last. -/
def chainPost (w : World) (n : Nat) (p : Player) (run : Except Fault Player) : Prop :=
  ∃ q, (run = Except.ok q ∨ run = Except.error (Fault.panic q)) ∧
    attempts q.trace ≤ attempts p.trace + n ∧
    (3 - p.playErrCount = (n : Int) →
      (∀ k, k < n → ∀ id, rejected (w.SongUrl (p.urlCalls + k) id)) →
      attempts q.trace = attempts p.trace + n →
      run = Except.ok q ∧ q.playErrCount = 3 ∧
      ∃ song, lastAttempt q.trace = some (q.curSongIndex, song) ∧
        index q.playlist q.curSongIndex = some song)

/-! # Theorems -/

/-! ## Play modes -/

theorem PmListLoop_ne_PmOrder : PmListLoop ≠ PmOrder := by decide
theorem PmListLoop_ne_PmSingleLoop : PmListLoop ≠ PmSingleLoop := by decide
theorem PmListLoop_ne_PmRandom : PmListLoop ≠ PmRandom := by decide
theorem PmListLoop_ne_PmIntelligent : PmListLoop ≠ PmIntelligent := by decide
theorem PmOrder_ne_PmSingleLoop : PmOrder ≠ PmSingleLoop := by decide
theorem PmOrder_ne_PmRandom : PmOrder ≠ PmRandom := by decide
theorem PmOrder_ne_PmIntelligent : PmOrder ≠ PmIntelligent := by decide
theorem PmSingleLoop_ne_PmRandom : PmSingleLoop ≠ PmRandom := by decide
theorem PmSingleLoop_ne_PmIntelligent : PmSingleLoop ≠ PmIntelligent := by decide
theorem PmRandom_ne_PmIntelligent : PmRandom ≠ PmIntelligent := by decide

/-- C9: `SetPlayMode("")` maps ListLoop to Order, Order to SingleLoop,
SingleLoop to Random and Random to ListLoop; from each of these four modes
four successive auto-cycles return to the starting mode; an auto-cycle from
any mode whatever never yields Intelligent; and `SetPlayMode(m)` with an
explicit (non-empty) mode `m` sets the mode to exactly `m`. -/
theorem SetPlayMode_cycle (p : Player) :
    (p.mode = PmListLoop → (SetPlayMode p "").mode = PmOrder) ∧
    (p.mode = PmOrder → (SetPlayMode p "").mode = PmSingleLoop) ∧
    (p.mode = PmSingleLoop → (SetPlayMode p "").mode = PmRandom) ∧
    (p.mode = PmRandom → (SetPlayMode p "").mode = PmListLoop) ∧
    (p.mode = PmListLoop ∨ p.mode = PmOrder ∨ p.mode = PmSingleLoop ∨ p.mode = PmRandom →
      (SetPlayMode (SetPlayMode (SetPlayMode (SetPlayMode p "") "") "") "").mode = p.mode) ∧
    (SetPlayMode p "").mode ≠ PmIntelligent ∧
    (∀ m : PlayMode, m ≠ "" → (SetPlayMode p m).mode = m) := by
  have h12 := PmListLoop_ne_PmOrder
  have h13 := PmListLoop_ne_PmSingleLoop
  have h14 := PmListLoop_ne_PmRandom
  have h15 := PmListLoop_ne_PmIntelligent
  have h23 := PmOrder_ne_PmSingleLoop
  have h24 := PmOrder_ne_PmRandom
  have h25 := PmOrder_ne_PmIntelligent
  have h34 := PmSingleLoop_ne_PmRandom
  have h35 := PmSingleLoop_ne_PmIntelligent
  have h45 := PmRandom_ne_PmIntelligent
  refine ⟨?_, ?_, ?_, ?_, ?_, ?_, ?_⟩
  · intro h; simp [SetPlayMode, h]
  · intro h; simp [SetPlayMode, h, h12.symm]
  · intro h; simp [SetPlayMode, h, h13.symm, h23.symm]
  · intro h; simp [SetPlayMode, h, h14.symm, h24.symm, h34.symm]
  · rintro (h | h | h | h) <;>
      simp [SetPlayMode, h, h12, h13, h14, h23, h24, h34, h12.symm, h13.symm, h14.symm,
        h23.symm, h24.symm, h34.symm]
  · unfold SetPlayMode
    simp only [if_true]
    split_ifs <;> simp [h15, h25, h35, h45]
  · intro m hm; simp [SetPlayMode, hm]

/-- Witness of C9 on a player in Random mode: the auto-cycle gives ListLoop
and four auto-cycles give Random again. -/
theorem SetPlayMode_cycle_witness :
    (SetPlayMode (mkPlayer mainMenu [songA] 0 PmRandom) "").mode = PmListLoop ∧
    (SetPlayMode (SetPlayMode (SetPlayMode (SetPlayMode
      (mkPlayer mainMenu [songA] 0 PmRandom) "") "") "") "").mode = PmRandom ∧
    (SetPlayMode (mkPlayer mainMenu [songA] 0 PmRandom) PmIntelligent).mode = PmIntelligent :=
  ⟨(SetPlayMode_cycle (mkPlayer mainMenu [songA] 0 PmRandom)).2.2.2.1 rfl,
   (SetPlayMode_cycle (mkPlayer mainMenu [songA] 0 PmRandom)).2.2.2.2.1
     (Or.inr (Or.inr (Or.inr rfl))),
   (SetPlayMode_cycle (mkPlayer mainMenu [songA] 0 PmRandom)).2.2.2.2.2.2 PmIntelligent
     (by decide)⟩

/-! ## Menu side effects leave the player fields alone -/

theorem bottomOut_eq (w : World) (p : Player) :
    ∃ m pl c, bottomOut w p = { p with model := m, playlist := pl, curSongIndex := c } := by
  unfold bottomOut
  split_ifs
  · exact ⟨_, _, _, rfl⟩
  · exact ⟨_, _, _, rfl⟩
  · split
    · exact ⟨p.model, p.playlist, p.curSongIndex, rfl⟩
    · split
      · exact ⟨p.model, p.playlist, p.curSongIndex, rfl⟩
      · exact ⟨_, _, _, rfl⟩

theorem topOut_eq (w : World) (p : Player) :
    ∃ m pl c, topOut w p = { p with model := m, playlist := pl, curSongIndex := c } := by
  unfold topOut
  split_ifs
  · exact ⟨_, _, _, rfl⟩
  · exact ⟨_, _, _, rfl⟩
  · split
    · exact ⟨p.model, p.playlist, p.curSongIndex, rfl⟩
    · split
      · exact ⟨p.model, p.playlist, p.curSongIndex, rfl⟩
      · exact ⟨_, _, _, rfl⟩

theorem LocatePlayingSong_eq (w : World) (p : Player) :
    ∃ m, LocatePlayingSong w p = { p with model := m } := by
  unfold LocatePlayingSong
  split
  · exact ⟨p.model, rfl⟩
  · split_ifs
    · exact ⟨p.model, rfl⟩
    · exact ⟨_, rfl⟩


/-- The three ways `extension` can end: it gives up (only the menu model and
the call counter may differ), it panics before any change, or it has extended
(`appendMode`) or replaced the playlist, set the mode, and either found the
song under the new cursor or panicked on the lookup. -/
theorem extension_cases (w : World) (p : Player) (b : Bool) :
    (∃ m ic, extension w p b = Except.ok ({ p with model := m, intelligenceCalls := ic }, none)) ∨
    extension w p b = Except.error (Fault.panic p) ∨
    ∃ pl c songs, (b = true → pl = p.playlist ++ songs ∧ c = p.curSongIndex + 1) ∧
      (b = false → ∃ sel, pl = sel :: songs ∧ c = 0) ∧
      ((index pl c = none ∧ extension w p b = Except.error (Fault.panic { p with
          playlist := pl, curSongIndex := c, mode := PmIntelligent,
          playingMenuKey := "Intelligent", intelligenceCalls := p.intelligenceCalls + 1 })) ∨
       ∃ s, index pl c = some s ∧ extension w p b = Except.ok ({ p with
          playlist := pl, curSongIndex := c, mode := PmIntelligent,
          playingMenuKey := "Intelligent", intelligenceCalls := p.intelligenceCalls + 1 },
          some s)) := by
  cases hd : p.model.menu.detail with
  | none =>
    left
    exact ⟨p.model, p.intelligenceCalls, by simp only [extension, hd]⟩
  | some pl =>
    by_cases h1 : p.model.selectedIndex ≥ pl.songs.length
    · left
      exact ⟨p.model, p.intelligenceCalls, by simp only [extension, hd, h1, if_true]⟩
    · by_cases h2 : w.CheckUserInfo p.model.user = CodeType.NeedLogin
      · left
        exact ⟨w.NeedLoginHandle p.model false, p.intelligenceCalls,
          by simp only [extension, hd, h1, h2, if_true, if_false]⟩
      · cases hi : index pl.songs p.model.selectedIndex with
        | none =>
          right; left
          simp only [extension, hd, h1, h2, hi, if_false]
        | some sel =>
          by_cases h3 : w.CheckCode
              (w.PlaymodeIntelligenceList p.intelligenceCalls sel.Id pl.PlaylistId).1 =
              CodeType.NeedLogin
          · left
            exact ⟨w.NeedLoginHandle p.model true, p.intelligenceCalls + 1,
              by simp only [extension, hd, h1, h2, hi, h3, if_true, if_false]⟩
          · by_cases h4 : w.CheckCode
                (w.PlaymodeIntelligenceList p.intelligenceCalls sel.Id pl.PlaylistId).1 =
                CodeType.Success
            · right; right
              have hne : ¬ (CodeType.Success = CodeType.NeedLogin) := by decide
              cases b
              · refine ⟨sel :: (w.PlaymodeIntelligenceList p.intelligenceCalls sel.Id
                  pl.PlaylistId).2, 0,
                  (w.PlaymodeIntelligenceList p.intelligenceCalls sel.Id pl.PlaylistId).2,
                  fun h => (by cases h), fun _ => ⟨sel, rfl, rfl⟩, ?_⟩
                cases hj : index (sel :: (w.PlaymodeIntelligenceList p.intelligenceCalls sel.Id
                  pl.PlaylistId).2) 0 with
                | none =>
                  left
                  refine ⟨rfl, ?_⟩
                  simp only [extension, hd, h1, h2, hi, h4, hne, if_false, if_true, ne_eq,
                    not_true_eq_false, Bool.false_eq_true, hj]
                | some s =>
                  right
                  refine ⟨s, rfl, ?_⟩
                  simp only [extension, hd, h1, h2, hi, h4, hne, if_false, if_true, ne_eq,
                    not_true_eq_false, Bool.false_eq_true, hj]
              · refine ⟨p.playlist ++ (w.PlaymodeIntelligenceList p.intelligenceCalls sel.Id
                  pl.PlaylistId).2, p.curSongIndex + 1,
                  (w.PlaymodeIntelligenceList p.intelligenceCalls sel.Id pl.PlaylistId).2,
                  fun _ => ⟨rfl, rfl⟩, fun h => (by cases h), ?_⟩
                cases hj : index (p.playlist ++ (w.PlaymodeIntelligenceList p.intelligenceCalls
                  sel.Id pl.PlaylistId).2) (p.curSongIndex + 1) with
                | none =>
                  left
                  refine ⟨rfl, ?_⟩
                  simp only [extension, hd, h1, h2, hi, h4, hne, if_false, if_true, ne_eq,
                    not_true_eq_false, Bool.false_eq_true, hj]
                | some s =>
                  right
                  refine ⟨s, rfl, ?_⟩
                  simp only [extension, hd, h1, h2, hi, h4, hne, if_false, if_true, ne_eq,
                    not_true_eq_false, Bool.false_eq_true, hj]
            · left
              exact ⟨p.model, p.intelligenceCalls + 1,
                by simp only [extension, hd, h1, h2, hi, h3, h4, if_true, if_false, ne_eq,
                  not_false_eq_true]⟩

theorem extension_mode (w : World) (p : Player) (b : Bool) (hI : p.mode = PmIntelligent) :
    (∀ q os, extension w p b = Except.ok (q, os) → q.mode = PmIntelligent) ∧
    (∀ e, extension w p b = Except.error e →
      ∃ q, e = Fault.panic q ∧ q.mode = PmIntelligent) := by
  rcases extension_cases w p b with ⟨m, ic, h⟩ | h | ⟨pl, c, songs, _, _, ⟨_, h⟩ | ⟨s, _, h⟩⟩
  · rw [h]
    exact ⟨fun q os hq => (by cases hq; exact hI), fun e he => (by cases he)⟩
  · rw [h]
    exact ⟨fun q os hq => (by cases hq), fun e he => (by cases he; exact ⟨p, rfl, hI⟩)⟩
  · rw [h]
    exact ⟨fun q os hq => (by cases hq), fun e he => (by cases he; exact ⟨_, rfl, rfl⟩)⟩
  · rw [h]
    exact ⟨fun q os hq => (by cases hq; rfl), fun e he => (by cases he)⟩

theorem extension_none (w : World) (p : Player) (b : Bool) (q : Player)
    (h : extension w p b = Except.ok (q, none)) :
    ∃ m ic, q = { p with model := m, intelligenceCalls := ic } := by
  rcases extension_cases w p b with ⟨m, ic, h1⟩ | h1 | ⟨pl, c, songs, _, _, ⟨_, h1⟩ | ⟨s, _, h1⟩⟩
  · rw [h1] at h; cases h; exact ⟨m, ic, rfl⟩
  · rw [h1] at h; cases h
  · rw [h1] at h; cases h
  · rw [h1] at h; cases h

theorem declined_of_ne (w : World) (p : Player) (h : p.mode ≠ PmIntelligent) :
    declined w p = p := by
  unfold declined
  rw [if_neg h]

theorem declined_eq (w : World) (p : Player) :
    ∃ m ic, declined w p = { p with model := m, intelligenceCalls := ic } := by
  unfold declined
  split_ifs
  · rcases extension_cases w p true with ⟨m, ic, h⟩ | h | ⟨pl, c, songs, _, _, ⟨_, h⟩ | ⟨s, _, h⟩⟩
    · rw [h]; exact ⟨m, ic, rfl⟩
    · rw [h]; exact ⟨p.model, p.intelligenceCalls, rfl⟩
    · rw [h]; exact ⟨p.model, p.intelligenceCalls, rfl⟩
    · rw [h]; exact ⟨p.model, p.intelligenceCalls, rfl⟩
  · exact ⟨p.model, p.intelligenceCalls, rfl⟩

theorem nextPre_eq (w : World) (p : Player) :
    ∃ m pl c ic, nextPre w p =
      { p with model := m, playlist := pl, curSongIndex := c, intelligenceCalls := ic } := by
  unfold nextPre
  split_ifs
  · obtain ⟨m, ic, hd⟩ := declined_eq w p
    obtain ⟨m2, pl, c, hb⟩ := bottomOut_eq w (declined w p)
    rw [hb, hd]
    exact ⟨m2, pl, c, ic, rfl⟩
  · exact ⟨p.model, p.playlist, p.curSongIndex, p.intelligenceCalls, rfl⟩

theorem prevPre_eq (w : World) (p : Player) :
    ∃ m pl c ic, prevPre w p =
      { p with model := m, playlist := pl, curSongIndex := c, intelligenceCalls := ic } := by
  unfold prevPre
  split_ifs
  · obtain ⟨m, ic, hd⟩ := declined_eq w p
    obtain ⟨m2, pl, c, hb⟩ := topOut_eq w (declined w p)
    rw [hb, hd]
    exact ⟨m2, pl, c, ic, rfl⟩
  · exact ⟨p.model, p.playlist, p.curSongIndex, p.intelligenceCalls, rfl⟩

theorem nextPre_frame (w : World) (p : Player) :
    (nextPre w p).mode = p.mode ∧ (nextPre w p).trace = p.trace ∧
    (nextPre w p).playErrCount = p.playErrCount ∧ (nextPre w p).urlCalls = p.urlCalls := by
  obtain ⟨m, pl, c, ic, h⟩ := nextPre_eq w p
  rw [h]
  exact ⟨rfl, rfl, rfl, rfl⟩

theorem prevPre_frame (w : World) (p : Player) :
    (prevPre w p).mode = p.mode ∧ (prevPre w p).trace = p.trace ∧
    (prevPre w p).playErrCount = p.playErrCount ∧ (prevPre w p).urlCalls = p.urlCalls := by
  obtain ⟨m, pl, c, ic, h⟩ := prevPre_eq w p
  rw [h]
  exact ⟨rfl, rfl, rfl, rfl⟩

/-! ## Unfolding the recursive functions -/

theorem NextSong_succ_of_ne (w : World) (fuel : Nat) (p : Player)
    (h : p.mode ≠ PmIntelligent) :
    NextSong w (fuel + 1) p = nextTail w fuel (nextPre w p) := by
  simp only [NextSong, nextTail, nextPre, declined_of_ne w p h, h, if_false, bind, Except.bind,
    pure, Except.pure]
  split_ifs
  · cases nextSwitch w (bottomOut w p) with
    | error e => rfl
    | ok v => cases v <;> rfl
  · cases nextSwitch w p with
    | error e => rfl
    | ok v => cases v <;> rfl

theorem PreviousSong_succ_of_ne (w : World) (fuel : Nat) (p : Player)
    (h : p.mode ≠ PmIntelligent) :
    PreviousSong w (fuel + 1) p = prevTail w fuel (prevPre w p) := by
  simp only [PreviousSong, prevTail, prevPre, declined_of_ne w p h, h, if_false, bind,
    Except.bind, pure, Except.pure]
  split_ifs
  · cases prevSwitch w (topOut w p) with
    | error e => rfl
    | ok v => cases v <;> rfl
  · cases prevSwitch w p with
    | error e => rfl
    | ok v => cases v <;> rfl

/-! ## The mode switch, mode by mode -/

theorem nextSwitch_loop (w : World) (p : Player)
    (h : p.mode = PmListLoop ∨ p.mode = PmIntelligent) :
    nextSwitch w p = Except.ok (some { p with curSongIndex :=
      if p.curSongIndex + 1 > p.len - 1 then 0 else p.curSongIndex + 1 }) := by
  simp only [nextSwitch, h, if_true, Player.len, pure, Except.pure]
  split_ifs <;> rfl

theorem prevSwitch_loop (w : World) (p : Player)
    (h : p.mode = PmListLoop ∨ p.mode = PmIntelligent) :
    prevSwitch w p = Except.ok (some { p with curSongIndex :=
      if p.curSongIndex - 1 < 0 then p.len - 1 else p.curSongIndex - 1 }) := by
  simp only [prevSwitch, h, if_true, Player.len, pure, Except.pure]
  split_ifs <;> rfl

theorem nextSwitch_single (w : World) (p : Player) (h : p.mode = PmSingleLoop) :
    nextSwitch w p = Except.ok (some p) := by
  have h1 : ¬ (PmSingleLoop = PmListLoop ∨ PmSingleLoop = PmIntelligent) := by decide
  simp only [nextSwitch, h, h1, if_true, if_false, pure, Except.pure]

theorem prevSwitch_single (w : World) (p : Player) (h : p.mode = PmSingleLoop) :
    prevSwitch w p = Except.ok (some p) := by
  have h1 : ¬ (PmSingleLoop = PmListLoop ∨ PmSingleLoop = PmIntelligent) := by decide
  simp only [prevSwitch, h, h1, if_true, if_false, pure, Except.pure]

theorem nextSwitch_random (w : World) (p : Player) (h : p.mode = PmRandom) :
    nextSwitch w p =
      match Intn (w.rand p.randCalls) (p.len - 1) with
      | none => Except.error (Fault.panic p)
      | some i => Except.ok (some { p with curSongIndex := i, randCalls := p.randCalls + 1 }) := by
  have h1 : ¬ (PmRandom = PmListLoop ∨ PmRandom = PmIntelligent) := by decide
  have h2 : PmRandom ≠ PmSingleLoop := by decide
  simp only [nextSwitch, h, h1, h2, if_true, if_false, pure, Except.pure]
  rfl

theorem prevSwitch_random (w : World) (p : Player) (h : p.mode = PmRandom) :
    prevSwitch w p =
      match Intn (w.rand p.randCalls) (p.len - 1) with
      | none => Except.error (Fault.panic p)
      | some i => Except.ok (some { p with curSongIndex := i, randCalls := p.randCalls + 1 }) := by
  have h1 : ¬ (PmRandom = PmListLoop ∨ PmRandom = PmIntelligent) := by decide
  have h2 : PmRandom ≠ PmSingleLoop := by decide
  simp only [prevSwitch, h, h1, h2, if_true, if_false, pure, Except.pure]
  rfl

theorem nextSwitch_order (w : World) (p : Player) (h : p.mode = PmOrder) :
    nextSwitch w p =
      if p.curSongIndex ≥ p.len - 1 then Except.ok none
      else Except.ok (some { p with curSongIndex := p.curSongIndex + 1 }) := by
  have h1 : ¬ (PmOrder = PmListLoop ∨ PmOrder = PmIntelligent) := by decide
  have h2 : PmOrder ≠ PmSingleLoop := by decide
  have h3 : PmOrder ≠ PmRandom := by decide
  simp only [nextSwitch, h, h1, h2, h3, if_true, if_false, pure, Except.pure]

theorem prevSwitch_order (w : World) (p : Player) (h : p.mode = PmOrder) :
    prevSwitch w p =
      if p.curSongIndex ≤ 0 then Except.ok none
      else Except.ok (some { p with curSongIndex := p.curSongIndex - 1 }) := by
  have h1 : ¬ (PmOrder = PmListLoop ∨ PmOrder = PmIntelligent) := by decide
  have h2 : PmOrder ≠ PmSingleLoop := by decide
  have h3 : PmOrder ≠ PmRandom := by decide
  simp only [prevSwitch, h, h1, h2, h3, if_true, if_false, pure, Except.pure]

theorem nextSwitch_other (w : World) (p : Player)
    (h1 : p.mode ≠ PmListLoop) (h2 : p.mode ≠ PmIntelligent) (h3 : p.mode ≠ PmSingleLoop)
    (h4 : p.mode ≠ PmRandom) (h5 : p.mode ≠ PmOrder) :
    nextSwitch w p = Except.ok (some p) := by
  simp only [nextSwitch, h1, h2, h3, h4, h5, or_self, if_false, pure, Except.pure]

theorem prevSwitch_other (w : World) (p : Player)
    (h1 : p.mode ≠ PmListLoop) (h2 : p.mode ≠ PmIntelligent) (h3 : p.mode ≠ PmSingleLoop)
    (h4 : p.mode ≠ PmRandom) (h5 : p.mode ≠ PmOrder) :
    prevSwitch w p = Except.ok (some p) := by
  simp only [prevSwitch, h1, h2, h3, h4, h5, or_self, if_false, pure, Except.pure]

/-! ## Order mode at the ends of the list -/

/-- C3 fails as stated: in Order mode on `[A]` with the cursor at the last
index 0, when the hook of the playing menu loads one more song, `NextSong`
moves the cursor to 1 and plays B. -/
theorem order_boundary_counterexample :
    ((final (NextSong wLoad 8 (hookedPlayer [songA] 0 PmOrder))).map
      fun q => (q.curSongIndex, q.playlist, q.trace)) =
      some (1, [songA, songB],
        [Event.playSong 1 songB PlayDirection.DurationNext,
         Event.play SongType.Mp3 "u" 150]) := by
  decide!

/-- C3, amended: in Order mode, for every non-empty playlist, `NextSong` with
the cursor at the last index, when the menu movement or hook of the boundary
block leaves playlist and cursor as they were, returns with the cursor, the
playlist and the trace unchanged (no `PlaySong` entry, no engine call); and
`PreviousSong` with the cursor at index 0, when the boundary block leaves the
cursor as it was, returns with the cursor and the trace unchanged. -/
theorem order_boundary_noop (w : World) (fuel : Nat) (p : Player)
    (hmode : p.mode = PmOrder) (_hne : p.playlist ≠ []) :
    (p.curSongIndex = p.len - 1 → undisturbed p (nextPre w p) →
      ∃ q, NextSong w (fuel + 1) p = Except.ok q ∧ q.curSongIndex = p.curSongIndex ∧
        q.playlist = p.playlist ∧ q.trace = p.trace) ∧
    (p.curSongIndex = 0 → (prevPre w p).curSongIndex = p.curSongIndex →
      ∃ q, PreviousSong w (fuel + 1) p = Except.ok q ∧ q.curSongIndex = p.curSongIndex ∧
        q.trace = p.trace) := by
  have hI : p.mode ≠ PmIntelligent := by rw [hmode]; exact PmOrder_ne_PmIntelligent
  constructor
  · intro hc hu
    obtain ⟨hm, htr, _, _⟩ := nextPre_frame w p
    refine ⟨nextPre w p, ?_, hu.2, hu.1, htr⟩
    rw [NextSong_succ_of_ne w fuel p hI, nextTail,
      nextSwitch_order w (nextPre w p) (hm.trans hmode)]
    have hc2 : (nextPre w p).curSongIndex ≥ (nextPre w p).len - 1 := by
      simp only [Player.len, hu.1, hu.2] at hc ⊢
      omega
    rw [if_pos hc2]
  · intro hc hu
    obtain ⟨hm, htr, _, _⟩ := prevPre_frame w p
    refine ⟨prevPre w p, ?_, hu, htr⟩
    rw [PreviousSong_succ_of_ne w fuel p hI, prevTail,
      prevSwitch_order w (prevPre w p) (hm.trans hmode)]
    rw [if_pos (by rw [hu, hc])]

/-- Witness of C3: playlist `[A]`, Order mode, cursor 0, menu movements that
change nothing. -/
theorem order_boundary_noop_witness :
    (∃ q, NextSong wGood 1 (mkPlayer mainMenu [songA] 0 PmOrder) = Except.ok q ∧
      q.curSongIndex = 0 ∧ q.playlist = [songA] ∧ q.trace = []) ∧
    (∃ q, PreviousSong wGood 1 (mkPlayer mainMenu [songA] 0 PmOrder) = Except.ok q ∧
      q.curSongIndex = 0 ∧ q.trace = []) :=
  ⟨(order_boundary_noop wGood 0 (mkPlayer mainMenu [songA] 0 PmOrder) rfl (by decide)).1
      (by decide) ⟨by decide!, by decide!⟩,
   (order_boundary_noop wGood 0 (mkPlayer mainMenu [songA] 0 PmOrder) rfl (by decide)).2
      (by decide) (by decide!)⟩

/-! ## The lyric window -/

theorem GetLRCFragment_text (timer : LRCTimer) (j : Int) :
    ((timer.GetLRCFragment j).map LRCFragment.Content).getD "" =
      if 0 ≤ j ∧ j < timer.fragments.length then
        ((timer.fragments[j.toNat]?).map LRCFragment.Content).getD ""
      else "" := by
  unfold LRCTimer.GetLRCFragment index
  by_cases h0 : j < 0
  · have : ¬ (0 ≤ j ∧ j < timer.fragments.length) := by omega
    simp [h0, this]
  · by_cases h1 : j < timer.fragments.length
    · have : 0 ≤ j ∧ j < timer.fragments.length := ⟨by omega, h1⟩
      simp [h0, this]
    · have h2 : ¬ (0 ≤ j ∧ j < timer.fragments.length) := by omega
      have h3 : timer.fragments.length ≤ j.toNat := by omega
      simp [h0, h2, List.getElem?_eq_none h3]

theorem setLyric_fragment (timer : LRCTimer) (q : Player) (i : Nat) (j : Int) :
    (match timer.GetLRCFragment j with
      | some f => setLyric q i f.Content
      | none => setLyric q i "") =
      setLyric q i (((timer.GetLRCFragment j).map LRCFragment.Content).getD "") := by
  cases timer.GetLRCFragment j <;> rfl

theorem lyricListener_eq (p : Player) (timer : LRCTimer) (content : String) (idx : Int)
    (a b c d e : String) (ht : p.lrcTimer = some timer) (hl : p.lyrics = [a, b, c, d, e]) :
    lyricListener p content idx = Except.ok { p with lyrics :=
      [((timer.GetLRCFragment (idx - 2)).map LRCFragment.Content).getD "",
       ((timer.GetLRCFragment (idx - 1)).map LRCFragment.Content).getD "",
       ((timer.GetLRCFragment idx).map LRCFragment.Content).getD "",
       ((timer.GetLRCFragment (idx + 1)).map LRCFragment.Content).getD "",
       ((timer.GetLRCFragment (idx + 2)).map LRCFragment.Content).getD ""] } := by
  obtain ⟨model, playlist, cur, curSong, key, menu, lrc, lyrics, ramp, cnt, mode, st, tr, u, r,
    ic⟩ := p
  simp only at ht hl
  subst ht hl
  have hr2 : List.range 2 = [0, 1] := rfl
  have hr3 : List.range 3 = [0, 1, 2] := rfl
  have h2 : [a, b, c, d, e].length / 2 = 2 := by simp
  simp only [lyricListener, setLyric_fragment, pure, Except.pure]
  simp only [h2, hr2, List.foldl_cons, List.foldl_nil]
  simp only [setLyric, List.set, List.length_cons, List.length_nil]
  norm_num [hr3, List.set]
  congr 3
  ring

/-- C8: for every lyric track and every index `idx` reported to
`lyricListener`, the listener returns and the lyric window then has exactly 5
slots, where slot `k` (`k = 0..4`) holds the text of fragment `idx - 2 + k` if
that index is within the lyric track and the empty string otherwise; so for an
index within the track slot 2 holds the active fragment, and for `idx = 0`
slots 0 and 1 are empty strings. -/
theorem lyricListener_window (p : Player) (timer : LRCTimer) (content : String) (idx : Int)
    (ht : p.lrcTimer = some timer) (hl : p.lyrics.length = 5) :
    ∃ q, lyricListener p content idx = Except.ok q ∧ q.lyrics.length = 5 ∧
      (∀ k : Nat, k < 5 → q.lyrics[k]? = some
        (if 0 ≤ idx - 2 + k ∧ idx - 2 + k < timer.fragments.length then
          ((timer.fragments[(idx - 2 + k).toNat]?).map LRCFragment.Content).getD ""
        else "")) ∧
      (idx = 0 → q.lyrics[0]? = some "" ∧ q.lyrics[1]? = some "") := by
  match hlyr : p.lyrics, hl with
  | [a, b, c, d, e], _ =>
    refine ⟨_, lyricListener_eq p timer content idx a b c d e ht hlyr, rfl, ?_, ?_⟩
    · intro k hk
      simp only [GetLRCFragment_text]
      interval_cases k
      · rw [show idx - 2 + ((0 : Nat) : Int) = idx - 2 by push_cast; ring]; rfl
      · rw [show idx - 2 + ((1 : Nat) : Int) = idx - 1 by push_cast; ring]; rfl
      · rw [show idx - 2 + ((2 : Nat) : Int) = idx by push_cast; ring]; rfl
      · rw [show idx - 2 + ((3 : Nat) : Int) = idx + 1 by push_cast; ring]; rfl
      · rw [show idx - 2 + ((4 : Nat) : Int) = idx + 2 by push_cast; ring]; rfl
    · intro h0
      subst h0
      simp [LRCTimer.GetLRCFragment, index]

/-- Witness of C8: the three-line track, active index 0. -/
theorem lyricListener_window_witness :
    lyricPlayer.lrcTimer = some sampleTimer ∧ lyricPlayer.lyrics.length = 5 ∧
    ∃ q, lyricListener lyricPlayer "la" 0 = Except.ok q ∧ q.lyrics.length = 5 ∧
      (∀ k : Nat, k < 5 → q.lyrics[k]? = some
        (if 0 ≤ (0 : Int) - 2 + k ∧ (0 : Int) - 2 + k < sampleTimer.fragments.length then
          ((sampleTimer.fragments[((0 : Int) - 2 + k).toNat]?).map LRCFragment.Content).getD ""
        else "")) ∧
      ((0 : Int) = 0 → q.lyrics[0]? = some "" ∧ q.lyrics[1]? = some "") :=
  ⟨rfl, rfl, lyricListener_window lyricPlayer sampleTimer "la" 0 rfl rfl⟩

/-! ## `PlaySong`, branch by branch -/

theorem playSongEnter_eq (w : World) (p : Player) (song : Song) (d : PlayDirection) :
    ∃ m, playSongEnter w p song d = { p with
      model := m, curSong := song,
      trace := p.trace ++ [Event.playSong p.curSongIndex song d],
      urlCalls := p.urlCalls + 1 } := by
  unfold playSongEnter
  obtain ⟨m, hm⟩ := LocatePlayingSong_eq w
    { p with trace := p.trace ++ [Event.playSong p.curSongIndex song d], curSong := song }
  exact ⟨m, by simp only [hm]⟩

theorem advance_next (w : World) (fuel : Nat) (p : Player) :
    advance w fuel p PlayDirection.DurationNext = NextSong w fuel p := rfl

theorem advance_prev (w : World) (fuel : Nat) (p : Player) :
    advance w fuel p PlayDirection.DurationPrev = PreviousSong w fuel p := rfl

theorem PlaySong_succ (w : World) (fuel : Nat) (p : Player) (song : Song)
    (d : PlayDirection) :
    PlaySong w (fuel + 1) p song d =
      if (w.SongUrl p.urlCalls song.Id).code ≠ 200 then
        Except.ok (playSongEnter w p song d)
      else if unplayable (w.SongUrl p.urlCalls song.Id) then
        if (playSongFail (playSongEnter w p song d)).playErrCount ≥ 3 then
          Except.ok (playSongFail (playSongEnter w p song d))
        else advance w fuel (playSongFail (playSongEnter w p song d)) d
      else
        Except.ok (playSongOk (playSongEnter w p song d) song
          ((w.SongUrl p.urlCalls song.Id).url.getD "")
          (ToLower ((w.SongUrl p.urlCalls song.Id).musicType.getD ""))) := by
  rw [PlaySong]
  cases d <;> rfl

theorem PlaySong_zero (w : World) (p : Player) (song : Song) (d : PlayDirection) :
    PlaySong w 0 p song d = Except.error Fault.outOfFuel := by
  rw [PlaySong]; rfl

theorem advance_zero (w : World) (p : Player) (d : PlayDirection) :
    advance w 0 p d = Except.error Fault.outOfFuel := by
  cases d
  · rw [advance_next, NextSong]; rfl
  · rw [advance_prev, PreviousSong]; rfl

theorem advance_succ_of_ne (w : World) (fuel : Nat) (p : Player) (d : PlayDirection)
    (h : p.mode ≠ PmIntelligent) :
    advance w (fuel + 1) p d =
      match target w p d with
      | Except.error e => Except.error e
      | Except.ok (q, none) => Except.ok q
      | Except.ok (q, some song) => PlaySong w fuel q song d := by
  cases d
  · rw [advance_next, NextSong_succ_of_ne w fuel p h, nextTail, target]
    cases nextSwitch w (nextPre w p) with
    | error e => rfl
    | ok v =>
      cases v with
      | none => rfl
      | some q =>
        simp only
        split_ifs
        · rfl
        · cases index q.playlist q.curSongIndex <;> rfl
  · rw [advance_prev, PreviousSong_succ_of_ne w fuel p h, prevTail, target]
    cases prevSwitch w (prevPre w p) with
    | error e => rfl
    | ok v =>
      cases v with
      | none => rfl
      | some q =>
        simp only
        split_ifs
        · rfl
        · cases index q.playlist q.curSongIndex <;> rfl

/-! ## What the pre-play part of `NextSong` / `PreviousSong` can change -/

theorem nextSwitch_frame (w : World) (p : Player) :
    (∀ q, nextSwitch w p = Except.ok (some q) →
      ∃ c r, q = { p with curSongIndex := c, randCalls := r }) ∧
    (∀ e, nextSwitch w p = Except.error e → e = Fault.panic p) := by
  unfold nextSwitch
  simp only [pure, Except.pure, throw, throwThe, MonadExceptOf.throw]
  split_ifs
  · exact ⟨fun q h => ⟨_, _, (Option.some.inj (Except.ok.inj h)).symm⟩, fun e h => by cases h⟩
  · exact ⟨fun q h => ⟨_, _, (Option.some.inj (Except.ok.inj h)).symm⟩, fun e h => by cases h⟩
  · exact ⟨fun q h => ⟨p.curSongIndex, p.randCalls, (Option.some.inj (Except.ok.inj h)).symm⟩,
      fun e h => by cases h⟩
  · cases Intn (w.rand p.randCalls) (p.len - 1) with
    | none => exact ⟨fun q h => (by cases h), fun e h => (Except.error.inj h).symm⟩
    | some i =>
      exact ⟨fun q h => ⟨_, _, (Option.some.inj (Except.ok.inj h)).symm⟩, fun e h => by cases h⟩
  · exact ⟨fun q h => (by cases h), fun e h => (by cases h)⟩
  · exact ⟨fun q h => ⟨_, p.randCalls, (Option.some.inj (Except.ok.inj h)).symm⟩,
      fun e h => by cases h⟩
  · exact ⟨fun q h => ⟨p.curSongIndex, p.randCalls, (Option.some.inj (Except.ok.inj h)).symm⟩,
      fun e h => by cases h⟩

theorem prevSwitch_frame (w : World) (p : Player) :
    (∀ q, prevSwitch w p = Except.ok (some q) →
      ∃ c r, q = { p with curSongIndex := c, randCalls := r }) ∧
    (∀ e, prevSwitch w p = Except.error e → e = Fault.panic p) := by
  unfold prevSwitch
  simp only [pure, Except.pure, throw, throwThe, MonadExceptOf.throw]
  split_ifs
  · exact ⟨fun q h => ⟨_, _, (Option.some.inj (Except.ok.inj h)).symm⟩, fun e h => by cases h⟩
  · exact ⟨fun q h => ⟨_, _, (Option.some.inj (Except.ok.inj h)).symm⟩, fun e h => by cases h⟩
  · exact ⟨fun q h => ⟨p.curSongIndex, p.randCalls, (Option.some.inj (Except.ok.inj h)).symm⟩,
      fun e h => by cases h⟩
  · cases Intn (w.rand p.randCalls) (p.len - 1) with
    | none => exact ⟨fun q h => (by cases h), fun e h => (Except.error.inj h).symm⟩
    | some i =>
      exact ⟨fun q h => ⟨_, _, (Option.some.inj (Except.ok.inj h)).symm⟩, fun e h => by cases h⟩
  · exact ⟨fun q h => (by cases h), fun e h => (by cases h)⟩
  · exact ⟨fun q h => ⟨_, p.randCalls, (Option.some.inj (Except.ok.inj h)).symm⟩,
      fun e h => by cases h⟩
  · exact ⟨fun q h => ⟨p.curSongIndex, p.randCalls, (Option.some.inj (Except.ok.inj h)).symm⟩,
      fun e h => by cases h⟩

/-- A `target` that returns leaves everything but the menu model, the
playlist, the cursor and the two call counters as it was, and the song it
yields is the one under the new cursor. -/
theorem target_ok (w : World) (p : Player) (d : PlayDirection) (q : Player)
    (os : Option Song) (h : target w p d = Except.ok (q, os)) :
    (∃ m pl c r ic, q = { p with
      model := m, playlist := pl, curSongIndex := c, randCalls := r,
      intelligenceCalls := ic }) ∧
    (∀ s, os = some s → index q.playlist q.curSongIndex = some s) := by
  cases d
  · obtain ⟨m, pl, c0, ic, hm⟩ := nextPre_eq w p
    unfold target at h
    simp only at h
    cases hs : nextSwitch w (nextPre w p) with
    | error e => rw [hs] at h; cases h
    | ok v =>
      rw [hs] at h
      cases v with
      | none =>
        simp only [Except.ok.injEq, Prod.mk.injEq] at h
        obtain ⟨h1, h2⟩ := h
        subst h1 h2
        exact ⟨⟨m, pl, c0, p.randCalls, ic, hm⟩, fun s hs => by cases hs⟩
      | some q1 =>
        obtain ⟨c, r, hq1⟩ := (nextSwitch_frame w (nextPre w p)).1 q1 hs
        rw [hm] at hq1
        simp only at h
        split_ifs at h
        · simp only [Except.ok.injEq, Prod.mk.injEq] at h
          obtain ⟨h1, h2⟩ := h
          subst h1 h2
          exact ⟨⟨m, pl, c, r, ic, hq1⟩, fun s hs => by cases hs⟩
        · cases hi : index q1.playlist q1.curSongIndex with
          | none => rw [hi] at h; cases h
          | some song =>
            rw [hi] at h
            simp only [Except.ok.injEq, Prod.mk.injEq] at h
            obtain ⟨h1, h2⟩ := h
            subst h1 h2
            exact ⟨⟨m, pl, c, r, ic, hq1⟩, fun s hs => by rw [hi, hs]⟩
  · obtain ⟨m, pl, c0, ic, hm⟩ := prevPre_eq w p
    unfold target at h
    simp only at h
    cases hs : prevSwitch w (prevPre w p) with
    | error e => rw [hs] at h; cases h
    | ok v =>
      rw [hs] at h
      cases v with
      | none =>
        simp only [Except.ok.injEq, Prod.mk.injEq] at h
        obtain ⟨h1, h2⟩ := h
        subst h1 h2
        exact ⟨⟨m, pl, c0, p.randCalls, ic, hm⟩, fun s hs => by cases hs⟩
      | some q1 =>
        obtain ⟨c, r, hq1⟩ := (prevSwitch_frame w (prevPre w p)).1 q1 hs
        rw [hm] at hq1
        simp only at h
        split_ifs at h
        · simp only [Except.ok.injEq, Prod.mk.injEq] at h
          obtain ⟨h1, h2⟩ := h
          subst h1 h2
          exact ⟨⟨m, pl, c, r, ic, hq1⟩, fun s hs => by cases hs⟩
        · cases hi : index q1.playlist q1.curSongIndex with
          | none => rw [hi] at h; cases h
          | some song =>
            rw [hi] at h
            simp only [Except.ok.injEq, Prod.mk.injEq] at h
            obtain ⟨h1, h2⟩ := h
            subst h1 h2
            exact ⟨⟨m, pl, c, r, ic, hq1⟩, fun s hs => by rw [hi, hs]⟩

/-- A `target` that does not return has panicked, in a state that differs
from the start at most in the menu model, the playlist, the cursor and the two
call counters. -/
theorem target_error (w : World) (p : Player) (d : PlayDirection) (e : Fault)
    (h : target w p d = Except.error e) :
    ∃ m pl c r ic, e = Fault.panic { p with
      model := m, playlist := pl, curSongIndex := c, randCalls := r,
      intelligenceCalls := ic } := by
  cases d
  · obtain ⟨m, pl, c0, ic, hm⟩ := nextPre_eq w p
    unfold target at h
    simp only at h
    cases hs : nextSwitch w (nextPre w p) with
    | error e1 =>
      rw [hs] at h
      have := (nextSwitch_frame w (nextPre w p)).2 e1 hs
      rw [hm] at this
      cases h
      exact ⟨m, pl, c0, p.randCalls, ic, this⟩
    | ok v =>
      rw [hs] at h
      cases v with
      | none => cases h
      | some q1 =>
        obtain ⟨c, r, hq1⟩ := (nextSwitch_frame w (nextPre w p)).1 q1 hs
        rw [hm] at hq1
        simp only at h
        split_ifs at h
        cases hi : index q1.playlist q1.curSongIndex with
        | none =>
          rw [hi] at h
          cases h
          exact ⟨m, pl, c, r, ic, by rw [hq1]⟩
        | some song => rw [hi] at h; cases h
  · obtain ⟨m, pl, c0, ic, hm⟩ := prevPre_eq w p
    unfold target at h
    simp only at h
    cases hs : prevSwitch w (prevPre w p) with
    | error e1 =>
      rw [hs] at h
      have := (prevSwitch_frame w (prevPre w p)).2 e1 hs
      rw [hm] at this
      cases h
      exact ⟨m, pl, c0, p.randCalls, ic, this⟩
    | ok v =>
      rw [hs] at h
      cases v with
      | none => cases h
      | some q1 =>
        obtain ⟨c, r, hq1⟩ := (prevSwitch_frame w (prevPre w p)).1 q1 hs
        rw [hm] at hq1
        simp only at h
        split_ifs at h
        cases hi : index q1.playlist q1.curSongIndex with
        | none =>
          rw [hi] at h
          cases h
          exact ⟨m, pl, c, r, ic, by rw [hq1]⟩
        | some song => rw [hi] at h; cases h

/-! ## Traces -/

theorem attempts_enter (t : List Event) (i : Int) (s : Song) (d : PlayDirection) :
    attempts (t ++ [Event.playSong i s d]) = attempts t + 1 := by
  simp [attempts, List.countP_append]

theorem attempts_fail (t : List Event) (i : Int) (s : Song) (d : PlayDirection) :
    attempts (t ++ [Event.playSong i s d, Event.paused]) = attempts t + 1 := by
  simp [attempts, List.countP_append, List.countP_cons]

theorem attempts_append_paused (t : List Event) :
    attempts (t ++ [Event.paused]) = attempts t := by
  simp [attempts, List.countP_append]

theorem attempts_append_play (t : List Event) (ty : SongType) (u : String) (n : Int) :
    attempts (t ++ [Event.play ty u n]) = attempts t := by
  simp [attempts, List.countP_append]

theorem lastAttempt_fail (t : List Event) (i : Int) (s : Song) (d : PlayDirection) :
    lastAttempt (t ++ [Event.playSong i s d, Event.paused]) = some (i, s) := by
  induction t with
  | nil => rfl
  | cons e t ih =>
    cases e with
    | playSong j s2 d2 =>
      rw [List.cons_append, lastAttempt, ih]
    | paused => rw [List.cons_append, lastAttempt, ih]
    | play ty u n => rw [List.cons_append, lastAttempt, ih]

theorem lastAttempt_enter (t : List Event) (i : Int) (s : Song) (d : PlayDirection) :
    lastAttempt (t ++ [Event.playSong i s d]) = some (i, s) := by
  induction t with
  | nil => rfl
  | cons e t ih =>
    cases e with
    | playSong j s2 d2 =>
      rw [List.cons_append, lastAttempt, ih]
    | paused => rw [List.cons_append, lastAttempt, ih]
    | play ty u n => rw [List.cons_append, lastAttempt, ih]

/-! ## The states `PlaySong` leaves -/

theorem playSongFail_enter (w : World) (q : Player) (s : Song) (d : PlayDirection) :
    ∃ m, playSongFail (playSongEnter w q s d) = { q with
      model := m, curSong := s,
      trace := q.trace ++ [Event.playSong q.curSongIndex s d, Event.paused],
      urlCalls := q.urlCalls + 1, state := State.Paused, progressRamp := [],
      playErrCount := q.playErrCount + 1 } := by
  obtain ⟨m, hm⟩ := playSongEnter_eq w q s d
  refine ⟨m, ?_⟩
  rw [hm]
  simp [playSongFail, Paused]

theorem playSongOk_enter (w : World) (q : Player) (s : Song) (d : PlayDirection)
    (url ty : String) :
    ∃ m tr, playSongOk (playSongEnter w q s d) s url ty = { q with
      model := m, curSong := s,
      trace := q.trace ++ Event.playSong q.curSongIndex s d :: tr,
      urlCalls := q.urlCalls + 1, playErrCount := 0 } ∧ attempts tr = 0 ∧
      ((ty = "mp3" ∨ ty = "flac") → ∃ f, tr = [Event.play f url s.Duration]) := by
  obtain ⟨m, hm⟩ := playSongEnter_eq w q s d
  rw [hm]
  unfold playSongOk
  by_cases h1 : ty = "mp3"
  · exact ⟨m, [Event.play SongType.Mp3 url s.Duration], by simp [h1], rfl,
      fun _ => ⟨_, rfl⟩⟩
  · by_cases h2 : ty = "flac"
    · exact ⟨m, [Event.play SongType.Flac url s.Duration], by simp [h1, h2], rfl,
        fun _ => ⟨_, rfl⟩⟩
    · exact ⟨m, [], by simp [h1, h2], rfl, fun h => by rcases h with h | h <;> contradiction⟩

/-! ## The retry chain outside Intelligent mode -/

theorem chainPost_stop (w : World) (n : Nat) (p q : Player) (run : Except Fault Player)
    (hrun : run = Except.ok q ∨ run = Except.error (Fault.panic q))
    (htr : q.trace = p.trace) (hn : 0 < n) : chainPost w n p run := by
  refine ⟨q, hrun, by rw [htr]; omega, ?_⟩
  intro _ _ h
  rw [htr] at h
  omega

theorem playSong_chain (w : World) (n : Nat)
    (hP : ∀ (p : Player) (d : PlayDirection) (fuel : Nat), p.mode ≠ PmIntelligent →
      3 - p.playErrCount ≤ (n : Int) → 2 * n ≤ fuel → 0 < n →
      chainPost w n p (advance w fuel p d))
    (q0 : Player) (s : Song) (d : PlayDirection) (fuel : Nat)
    (hI : q0.mode ≠ PmIntelligent) (hc : 3 - q0.playErrCount ≤ (n : Int) + 1)
    (hf : 2 * n + 1 ≤ fuel) (hidx : index q0.playlist q0.curSongIndex = some s) :
    chainPost w (n + 1) q0 (PlaySong w fuel q0 s d) := by
  obtain ⟨f, rfl⟩ : ∃ f, fuel = f + 1 := ⟨fuel - 1, by omega⟩
  rw [PlaySong_succ]
  obtain ⟨m1, h1⟩ := playSongEnter_eq w q0 s d
  obtain ⟨m2, h2⟩ := playSongFail_enter w q0 s d
  obtain ⟨m3, tr, h3, htr, _⟩ := playSongOk_enter w q0 s d
    ((w.SongUrl q0.urlCalls s.Id).url.getD "")
    (ToLower ((w.SongUrl q0.urlCalls s.Id).musicType.getD ""))
  by_cases hcode : (w.SongUrl q0.urlCalls s.Id).code ≠ 200
  · rw [if_pos hcode]
    refine ⟨_, Or.inl rfl, ?_, ?_⟩
    · rw [h1]; simp only [attempts_enter]; omega
    · intro _ hrej _
      exact absurd (hrej 0 (by omega) s.Id).1 hcode
  · rw [if_neg hcode]
    by_cases hun : unplayable (w.SongUrl q0.urlCalls s.Id) = true
    · rw [if_pos hun]
      by_cases h3c : (playSongFail (playSongEnter w q0 s d)).playErrCount ≥ 3
      · rw [if_pos h3c]
        refine ⟨_, Or.inl rfl, ?_, ?_⟩
        · rw [h2]; simp only [attempts_fail]; omega
        · intro hcnt _ _
          refine ⟨rfl, ?_, s, ?_, ?_⟩
          · rw [h2] at h3c ⊢
            simp only at h3c ⊢
            omega
          · rw [h2]; simp only [lastAttempt_fail]
          · rw [h2]; exact hidx
      · rw [if_neg h3c]
        have hq2c : (playSongFail (playSongEnter w q0 s d)).playErrCount =
            q0.playErrCount + 1 := by rw [h2]
        have hq2m : (playSongFail (playSongEnter w q0 s d)).mode = q0.mode := by rw [h2]
        have hq2t : attempts (playSongFail (playSongEnter w q0 s d)).trace =
            attempts q0.trace + 1 := by rw [h2]; simp only [attempts_fail]
        have hq2u : (playSongFail (playSongEnter w q0 s d)).urlCalls = q0.urlCalls + 1 := by
          rw [h2]
        have hn : 0 < n := by omega
        obtain ⟨q, hrun, hle, heq⟩ := hP (playSongFail (playSongEnter w q0 s d)) d f
          (by rw [hq2m]; exact hI) (by rw [hq2c]; omega) (by omega) hn
        refine ⟨q, hrun, by omega, ?_⟩
        intro hcnt hrej hatt
        refine heq (by rw [hq2c]; push_cast at hcnt; omega) ?_ (by omega)
        intro k hk id
        rw [hq2u]
        have := hrej (k + 1) (by omega) id
        rwa [show q0.urlCalls + (k + 1) = q0.urlCalls + 1 + k by omega] at this
    · rw [if_neg hun]
      refine ⟨_, Or.inl rfl, ?_, ?_⟩
      · rw [h3]
        have : attempts (q0.trace ++ Event.playSong q0.curSongIndex s d :: tr) =
            attempts q0.trace + 1 + attempts tr := by
          simp only [attempts, List.countP_append, List.countP_cons, List.countP_nil]
          simp
          omega
        simp only [this, htr]
        omega
      · intro _ hrej _
        exact absurd (hrej 0 (by omega) s.Id).2 hun

theorem advance_chain (w : World) (n : Nat)
    (hQ : ∀ (q0 : Player) (s : Song) (d : PlayDirection) (fuel : Nat),
      q0.mode ≠ PmIntelligent → 3 - q0.playErrCount ≤ (n : Int) + 1 → 2 * n + 1 ≤ fuel →
      index q0.playlist q0.curSongIndex = some s →
      chainPost w (n + 1) q0 (PlaySong w fuel q0 s d))
    (p : Player) (d : PlayDirection) (fuel : Nat)
    (hI : p.mode ≠ PmIntelligent) (hc : 3 - p.playErrCount ≤ ((n + 1 : Nat) : Int))
    (hf : 2 * (n + 1) ≤ fuel) : chainPost w (n + 1) p (advance w fuel p d) := by
  obtain ⟨f, rfl⟩ : ∃ f, fuel = f + 1 := ⟨fuel - 1, by omega⟩
  rw [advance_succ_of_ne w f p d hI]
  cases ht : target w p d with
  | error e =>
    obtain ⟨m, pl, c, r, ic, he⟩ := target_error w p d e ht
    subst he
    exact chainPost_stop w (n + 1) p _ _ (Or.inr rfl) rfl (by omega)
  | ok v =>
    obtain ⟨q0, os⟩ := v
    obtain ⟨⟨m, pl, c, r, ic, hq0⟩, hsong⟩ := target_ok w p d q0 os ht
    cases os with
    | none =>
      exact chainPost_stop w (n + 1) p q0 _ (Or.inl rfl) (by rw [hq0]) (by omega)
    | some s =>
      have hidx := hsong s rfl
      have hm : q0.mode = p.mode := by rw [hq0]
      have hcq : q0.playErrCount = p.playErrCount := by rw [hq0]
      have htq : q0.trace = p.trace := by rw [hq0]
      have huq : q0.urlCalls = p.urlCalls := by rw [hq0]
      have := hQ q0 s d f (by rw [hm]; exact hI) (by rw [hcq]; push_cast at hc; omega)
        (by omega) hidx
      simp only
      unfold chainPost at this ⊢
      rw [hcq, htq, huq] at this
      exact this

theorem retry_chain (w : World) (n : Nat) :
    ∀ (p : Player) (d : PlayDirection) (fuel : Nat), p.mode ≠ PmIntelligent →
      3 - p.playErrCount ≤ (n : Int) → 2 * n ≤ fuel → 0 < n →
      chainPost w n p (advance w fuel p d) := by
  induction n with
  | zero => intro _ _ _ _ _ _ h; omega
  | succ n ih =>
    intro p d fuel hI hc hf _
    exact advance_chain w n (playSong_chain w n ih) p d fuel hI hc hf

/-- C2 fails as stated: in Intelligent mode one `NextSong` on the playlist
`[A]`, with a recommendation service that extends the list and a resolver
that rejects every track, enters `PlaySong` four times and leaves the counter
at 4; and a resolver failure by a non-200 code is attempted once and leaves
the counter at 0. -/
theorem retry_chain_counterexample :
    ((final (NextSong wBad 8 (mkPlayer detailMenu [songA] 0 PmIntelligent))).map
      fun q => (attempts q.trace, q.playErrCount)) = some (4, 4) ∧
    ((final (NextSong wGone 8 (mkPlayer mainMenu [songA, songB] 0 PmListLoop))).map
      fun q => (attempts q.trace, q.playErrCount)) = some (1, 0) := by
  constructor <;> decide!

/-- C2, amended: in every mode other than Intelligent, from a counter that is
not negative, one call of `NextSong` or `PreviousSong` with fuel 6 or more
ends (by a return or a panic) after at most 3 entries into `PlaySong`; and
if the counter starts at 0, the next three resolver answers are code-200
answers that line 365 rejects and three tracks are attempted, then the call
returns with the counter at 3 and the cursor on the third track attempted. -/
theorem retry_chain_bounded (w : World) (p : Player) (d : PlayDirection) (fuel : Nat)
    (hI : p.mode ≠ PmIntelligent) (hc : 0 ≤ p.playErrCount) (hf : 6 ≤ fuel) :
    ∃ q, (advance w fuel p d = Except.ok q ∨ advance w fuel p d = Except.error (Fault.panic q)) ∧
      attempts q.trace ≤ attempts p.trace + 3 ∧
      (p.playErrCount = 0 →
        (∀ k, k < 3 → ∀ id, rejected (w.SongUrl (p.urlCalls + k) id)) →
        attempts q.trace = attempts p.trace + 3 →
        advance w fuel p d = Except.ok q ∧ q.playErrCount = 3 ∧
        ∃ song, lastAttempt q.trace = some (q.curSongIndex, song) ∧
          index q.playlist q.curSongIndex = some song) := by
  obtain ⟨q, hrun, hle, heq⟩ := retry_chain w 3 p d fuel hI (by push_cast; omega) (by omega)
    (by omega)
  exact ⟨q, hrun, hle, fun h0 hrej hatt => heq (by rw [h0]; rfl) hrej hatt⟩

/-- Witness of C2: list loop over `[A, B, C]` with a resolver that rejects
every track. -/
theorem retry_chain_bounded_witness :
    (∃ q, (advance wBad 6 (mkPlayer mainMenu [songA, songB, songC] 0 PmListLoop)
          PlayDirection.DurationNext = Except.ok q ∨
        advance wBad 6 (mkPlayer mainMenu [songA, songB, songC] 0 PmListLoop)
          PlayDirection.DurationNext = Except.error (Fault.panic q)) ∧
      attempts q.trace ≤ attempts (mkPlayer mainMenu [songA, songB, songC] 0 PmListLoop).trace + 3 ∧
      ((mkPlayer mainMenu [songA, songB, songC] 0 PmListLoop).playErrCount = 0 →
        (∀ k, k < 3 → ∀ id, rejected (wBad.SongUrl
          ((mkPlayer mainMenu [songA, songB, songC] 0 PmListLoop).urlCalls + k) id)) →
        attempts q.trace =
          attempts (mkPlayer mainMenu [songA, songB, songC] 0 PmListLoop).trace + 3 →
        advance wBad 6 (mkPlayer mainMenu [songA, songB, songC] 0 PmListLoop)
          PlayDirection.DurationNext = Except.ok q ∧ q.playErrCount = 3 ∧
        ∃ song, lastAttempt q.trace = some (q.curSongIndex, song) ∧
          index q.playlist q.curSongIndex = some song)) ∧
    ((final (advance wBad 6 (mkPlayer mainMenu [songA, songB, songC] 0 PmListLoop)
      PlayDirection.DurationNext)).map
        fun q => (attempts q.trace, q.playErrCount, q.curSongIndex)) = some (3, 3, 0) :=
  ⟨retry_chain_bounded wBad (mkPlayer mainMenu [songA, songB, songC] 0 PmListLoop)
    PlayDirection.DurationNext 6 (by decide) (by decide) (by decide), by decide!⟩

/-! ## C1: the failure branch of `PlaySong` -/

/-- C1 fails as stated: on a non-200 answer `PlaySong` returns with the
playback state still Playing and the counter still 0; and on a rejected
code-200 answer the retries that follow leave the counter 3 higher, not 1. -/
theorem PlaySong_failure_counterexample :
    ((final (PlaySong wGone 8 (mkPlayer mainMenu [songA, songB, songC] 0 PmListLoop) songA
      PlayDirection.DurationNext)).map fun q => (q.state, q.playErrCount)) =
        some (State.Playing, 0) ∧
    ((final (PlaySong wBad 8 (mkPlayer mainMenu [songA, songB, songC] 0 PmListLoop) songA
      PlayDirection.DurationNext)).map fun q => (q.state, q.playErrCount)) =
        some (State.Paused, 3) := by
  constructor <;> decide!

/-- C1, amended: for every track and every starting state, when the resolver
answers with code 200 and line 365 rejects the answer (a parser error on
`url` or `type`, or a lower-cased type that is neither "mp3" nor "flac"),
`PlaySong` first reaches a state `q` in which playback is Paused, the counter
is exactly one higher and the trace has gained only the entry and the pause
(nothing is handed to the audio engine), cursor, playlist and mode being
unchanged; it returns `q` when the counter has reached 3 and continues from
`q` with `NextSong` / `PreviousSong` otherwise.  When the code is not 200,
`PlaySong` returns with playback state and counter unchanged and nothing
handed to the audio engine. -/
theorem PlaySong_failure (w : World) (fuel : Nat) (p : Player) (song : Song)
    (d : PlayDirection) :
    (rejected (w.SongUrl p.urlCalls song.Id) →
      ∃ q, q.state = State.Paused ∧ q.playErrCount = p.playErrCount + 1 ∧
        q.trace = p.trace ++ [Event.playSong p.curSongIndex song d, Event.paused] ∧
        q.curSongIndex = p.curSongIndex ∧ q.playlist = p.playlist ∧ q.mode = p.mode ∧
        PlaySong w (fuel + 1) p song d =
          if q.playErrCount ≥ 3 then Except.ok q else advance w fuel q d) ∧
    ((w.SongUrl p.urlCalls song.Id).code ≠ 200 →
      ∃ q, PlaySong w (fuel + 1) p song d = Except.ok q ∧ q.state = p.state ∧
        q.playErrCount = p.playErrCount ∧
        q.trace = p.trace ++ [Event.playSong p.curSongIndex song d]) := by
  constructor
  · intro h
    obtain ⟨m, hm⟩ := playSongFail_enter w p song d
    refine ⟨playSongFail (playSongEnter w p song d), by rw [hm], by rw [hm], by rw [hm],
      by rw [hm], by rw [hm], by rw [hm], ?_⟩
    rw [PlaySong_succ, if_neg (by rw [h.1]; simp), if_pos h.2]
  · intro h
    obtain ⟨m, hm⟩ := playSongEnter_eq w p song d
    refine ⟨playSongEnter w p song d, ?_, by rw [hm], by rw [hm], by rw [hm]⟩
    rw [PlaySong_succ, if_pos h]

/-- Witness of C1: a rejected answer with the counter at 2 (the call returns
paused with the counter at 3), and a 404 answer. -/
theorem PlaySong_failure_witness :
    (∃ q, q.state = State.Paused ∧ q.playErrCount = 2 + 1 ∧
        q.trace = [] ++ [Event.playSong 0 songA PlayDirection.DurationNext, Event.paused] ∧
        q.curSongIndex = 0 ∧ q.playlist = [songA, songB] ∧ q.mode = PmListLoop ∧
        PlaySong wBad (0 + 1)
          { mkPlayer mainMenu [songA, songB] 0 PmListLoop with playErrCount := 2 } songA
          PlayDirection.DurationNext =
          if q.playErrCount ≥ 3 then Except.ok q
          else advance wBad 0 q PlayDirection.DurationNext) ∧
    (∃ q, PlaySong wGone (0 + 1) (mkPlayer mainMenu [songA, songB] 0 PmListLoop) songA
          PlayDirection.DurationNext = Except.ok q ∧ q.state = State.Playing ∧
        q.playErrCount = 0 ∧
        q.trace = [] ++ [Event.playSong 0 songA PlayDirection.DurationNext]) :=
  ⟨(PlaySong_failure wBad 0
      { mkPlayer mainMenu [songA, songB] 0 PmListLoop with playErrCount := 2 } songA
      PlayDirection.DurationNext).1 ⟨by decide, by decide⟩,
   (PlaySong_failure wGone 0 (mkPlayer mainMenu [songA, songB] 0 PmListLoop) songA
      PlayDirection.DurationNext).2 (by decide)⟩

/-! ## Random mode -/

theorem index_some {α : Type} (xs : List α) (i : Int) (h0 : 0 ≤ i) (h1 : i < xs.length) :
    ∃ s, index xs i = some s := by
  unfold index
  rw [if_neg (by omega)]
  have h2 : i.toNat < xs.length := by omega
  exact ⟨xs[i.toNat], List.getElem?_eq_getElem h2⟩

theorem index_bounds {α : Type} (xs : List α) (i : Int) (s : α) (h : index xs i = some s) :
    0 ≤ i ∧ i < xs.length := by
  unfold index at h
  by_cases h0 : i < 0
  · rw [if_pos h0] at h; cases h
  · rw [if_neg h0] at h
    have := (List.getElem?_eq_some.1 h).1
    omega

theorem Intn_pos (raw : Nat) (n : Int) (h : 0 < n) :
    ∃ i, Intn raw n = some i ∧ 0 ≤ i ∧ i < n := by
  unfold Intn
  rw [if_neg (by omega)]
  exact ⟨_, rfl, Int.emod_nonneg _ (by omega), Int.emod_lt_of_pos _ h⟩

theorem pre_inner (w : World) (p : Player) (d : PlayDirection)
    (hne : p.playlist.length ≠ 0) (hc : p.curSongIndex < p.len - 1) : pre w p d = p := by
  have hb : ¬ (p.playlist.length = 0 ∨ p.curSongIndex ≥ p.len - 1) := by
    rintro (h | h)
    · exact hne h
    · omega
  cases d
  · simp only [pre, nextPre, hb, if_false]
  · simp only [pre, prevPre, hb, if_false]

theorem pre_frame (w : World) (p : Player) (d : PlayDirection) :
    (pre w p d).mode = p.mode ∧ (pre w p d).trace = p.trace ∧
    (pre w p d).playErrCount = p.playErrCount ∧ (pre w p d).urlCalls = p.urlCalls := by
  cases d
  · exact nextPre_frame w p
  · exact prevPre_frame w p

theorem target_random (w : World) (p : Player) (d : PlayDirection) (hm : p.mode = PmRandom)
    (hl : 2 ≤ (pre w p d).playlist.length) :
    ∃ q0 s, target w p d = Except.ok (q0, some s) ∧ 0 ≤ q0.curSongIndex ∧
      q0.curSongIndex < (q0.playlist.length : Int) - 1 ∧
      index q0.playlist q0.curSongIndex = some s ∧ q0.playlist = (pre w p d).playlist ∧
      q0.mode = p.mode ∧ q0.playErrCount = p.playErrCount := by
  obtain ⟨hmode, _, hcnt, _⟩ := pre_frame w p d
  have hlen : (0 : Int) < (pre w p d).len - 1 := by unfold Player.len; omega
  obtain ⟨i, hi, hi0, hi1⟩ := Intn_pos (w.rand (pre w p d).randCalls) ((pre w p d).len - 1) hlen
  obtain ⟨s, hs⟩ := index_some (pre w p d).playlist i hi0
    (by unfold Player.len at hi1; omega)
  refine ⟨{ pre w p d with curSongIndex := i, randCalls := (pre w p d).randCalls + 1 }, s, ?_,
    hi0, by unfold Player.len at hi1; exact hi1, hs, rfl, hmode, hcnt⟩
  cases d
  · unfold target
    simp only [pre] at hi hi1 hs hmode ⊢
    rw [nextSwitch_random w (nextPre w p) (hmode.trans hm)]
    simp only [hi]
    rw [if_neg (by simp only [Player.len] at hi1 ⊢; omega)]
    simp only [hs]
  · unfold target
    simp only [pre] at hi hi1 hs hmode ⊢
    rw [prevSwitch_random w (prevPre w p) (hmode.trans hm)]
    simp only [hi]
    rw [if_neg (by omega)]
    simp only [hs]

theorem random_chain (w : World) (n : Nat) :
    ∀ (p : Player) (d : PlayDirection) (fuel : Nat), p.mode = PmRandom →
      2 ≤ (pre w p d).playlist.length → 3 - p.playErrCount ≤ (n : Int) → 2 * n ≤ fuel →
      0 < n →
      ∃ q, advance w fuel p d = Except.ok q ∧ q.playlist = (pre w p d).playlist ∧
        0 ≤ q.curSongIndex ∧ q.curSongIndex < (q.playlist.length : Int) - 1 := by
  induction n with
  | zero => intro _ _ _ _ _ _ _ h; omega
  | succ n ih =>
    intro p d fuel hm hl hc hf _
    obtain ⟨f, rfl⟩ : ∃ f, fuel = f + 2 := ⟨fuel - 2, by omega⟩
    have hI : p.mode ≠ PmIntelligent := by rw [hm]; exact PmRandom_ne_PmIntelligent
    obtain ⟨q0, s, ht, h0, h1, hidx, hpl, hmode, hcnt⟩ := target_random w p d hm hl
    rw [advance_succ_of_ne w (f + 1) p d hI, ht]
    simp only
    rw [PlaySong_succ]
    obtain ⟨m1, e1⟩ := playSongEnter_eq w q0 s d
    obtain ⟨m2, e2⟩ := playSongFail_enter w q0 s d
    obtain ⟨m3, tr, e3, _, _⟩ := playSongOk_enter w q0 s d
      ((w.SongUrl q0.urlCalls s.Id).url.getD "")
      (ToLower ((w.SongUrl q0.urlCalls s.Id).musicType.getD ""))
    split_ifs with hcode hun h3c
    · exact ⟨_, rfl, by rw [e1]; exact hpl, by rw [e1]; exact h0, by rw [e1]; exact h1⟩
    · exact ⟨_, rfl, by rw [e2]; exact hpl, by rw [e2]; exact h0, by rw [e2]; exact h1⟩
    · have hq2c : (playSongFail (playSongEnter w q0 s d)).playErrCount =
          p.playErrCount + 1 := by rw [e2]; exact congrArg (· + 1) hcnt
      have hq2m : (playSongFail (playSongEnter w q0 s d)).mode = PmRandom := by
        rw [e2]; exact hmode.trans hm
      have hq2p : (playSongFail (playSongEnter w q0 s d)).playlist = q0.playlist := by
        rw [e2]
      have hq2i : (playSongFail (playSongEnter w q0 s d)).curSongIndex = q0.curSongIndex := by
        rw [e2]
      have hin : pre w (playSongFail (playSongEnter w q0 s d)) d =
          playSongFail (playSongEnter w q0 s d) :=
        pre_inner w _ d (by rw [hq2p]; omega) (by rw [Player.len, hq2p, hq2i]; exact h1)
      rw [hq2c] at h3c
      obtain ⟨q, hrun, hqp, hq0', hq1'⟩ := ih (playSongFail (playSongEnter w q0 s d)) d f hq2m
        (by rw [hin, hq2p]; omega) (by rw [hq2c]; push_cast at hc; omega) (by omega)
        (by omega)
      exact ⟨q, hrun, by rw [hqp, hin, hq2p, hpl], hq0', hq1'⟩
    · exact ⟨_, rfl, by rw [e3]; exact hpl, by rw [e3]; exact h0, by rw [e3]; exact h1⟩

/-- C4 fails as stated: on a playlist of length 1 the Random case calls
`rand.Intn(0)`, which panics, in `NextSong` and in `PreviousSong`; and on
`[A, B]` with the cursor at the last index 1, when the hook of the playing menu
loads one more song, `NextSong` draws from `[0, 2)` and, with the draw 1,
leaves the cursor at 1, the last index of the playlist it started with. -/
theorem random_single_counterexample :
    NextSong wGood 8 (mkPlayer mainMenu [songA] 0 PmRandom) =
      Except.error (Fault.panic (mkPlayer mainMenu [songA] 0 PmRandom)) ∧
    PreviousSong wGood 8 (mkPlayer mainMenu [songA] 0 PmRandom) =
      Except.error (Fault.panic (mkPlayer mainMenu [songA] 0 PmRandom)) ∧
    ((final (NextSong wLoad 8 (hookedPlayer [songA, songB] 1 PmRandom))).map
      fun q => (q.curSongIndex, q.playlist)) = some (1, [songA, songB, songB]) := by
  refine ⟨by decide!, by decide!, by decide!⟩

/-- C4, amended: in Random mode, for every outcome of the random source (and
of the resolver), when the playlist on which the draw is made has length
`N ≥ 2`, `NextSong` and `PreviousSong` return, given fuel for the retries the
counter still allows, with that playlist in place and the cursor at a value
`c` with `0 ≤ c < N - 1`.  The draw is made on the playlist after the boundary
block: the playlist of the start, unless the cursor is at the last index and a
menu movement or hook changes it. -/
theorem random_advance_range (w : World) (p : Player) (fuel : Nat) (hm : p.mode = PmRandom)
    (hf : 2 * max 1 (3 - p.playErrCount).toNat ≤ fuel) :
    (2 ≤ (nextPre w p).playlist.length →
      ∃ q, NextSong w fuel p = Except.ok q ∧ q.playlist = (nextPre w p).playlist ∧
        0 ≤ q.curSongIndex ∧ q.curSongIndex < (q.playlist.length : Int) - 1) ∧
    (2 ≤ (prevPre w p).playlist.length →
      ∃ q, PreviousSong w fuel p = Except.ok q ∧ q.playlist = (prevPre w p).playlist ∧
        0 ≤ q.curSongIndex ∧ q.curSongIndex < (q.playlist.length : Int) - 1) := by
  have hn : 0 < max 1 (3 - p.playErrCount).toNat := by omega
  have hc : 3 - p.playErrCount ≤ ((max 1 (3 - p.playErrCount).toNat : Nat) : Int) := by omega
  exact ⟨fun hl => random_chain w _ p PlayDirection.DurationNext fuel hm hl hc hf hn,
    fun hl => random_chain w _ p PlayDirection.DurationPrev fuel hm hl hc hf hn⟩

/-- Witness of C4: `[A, B, C]`, cursor 2, random draw 1, fuel 6, menu movements
that change nothing: the cursor ends at 1. -/
theorem random_advance_range_witness :
    (∃ q, NextSong wGood 6 (mkPlayer mainMenu [songA, songB, songC] 2 PmRandom) = Except.ok q ∧
      q.playlist = (nextPre wGood (mkPlayer mainMenu [songA, songB, songC] 2 PmRandom)).playlist ∧
      0 ≤ q.curSongIndex ∧ q.curSongIndex < (q.playlist.length : Int) - 1) ∧
    (∃ q, PreviousSong wGood 6 (mkPlayer mainMenu [songA, songB, songC] 2 PmRandom) =
        Except.ok q ∧
      q.playlist = (prevPre wGood (mkPlayer mainMenu [songA, songB, songC] 2 PmRandom)).playlist ∧
      0 ≤ q.curSongIndex ∧ q.curSongIndex < (q.playlist.length : Int) - 1) ∧
    ((final (NextSong wGood 6 (mkPlayer mainMenu [songA, songB, songC] 2 PmRandom))).map
      fun q => (q.curSongIndex, q.playlist)) = some (1, [songA, songB, songC]) :=
  ⟨(random_advance_range wGood (mkPlayer mainMenu [songA, songB, songC] 2 PmRandom) 6 rfl
      (by decide)).1 (by decide!),
   (random_advance_range wGood (mkPlayer mainMenu [songA, songB, songC] 2 PmRandom) 6 rfl
      (by decide)).2 (by decide!), by decide!⟩

/-! ## `Intelligence` and the general form of `NextSong` / `PreviousSong` -/

theorem Intelligence_succ (w : World) (fuel : Nat) (p : Player) (appendMode : Bool) :
    Intelligence w (fuel + 1) p appendMode =
      match extension w p appendMode with
      | Except.error e => Except.error e
      | Except.ok (q, none) => Except.ok q
      | Except.ok (q, some song) => PlaySong w fuel q song PlayDirection.DurationNext := by
  cases hd : p.model.menu.detail with
  | none => simp only [Intelligence, extension, hd, pure, Except.pure]
  | some pl =>
    by_cases h1 : p.model.selectedIndex ≥ pl.songs.length
    · simp only [Intelligence, extension, hd, h1, if_true, pure, Except.pure]
    · by_cases h2 : w.CheckUserInfo p.model.user = CodeType.NeedLogin
      · simp only [Intelligence, extension, hd, h1, h2, if_true, if_false, pure, Except.pure]
      · cases hi : index pl.songs p.model.selectedIndex with
        | none =>
          simp only [Intelligence, extension, hd, h1, h2, hi, if_false, pure, Except.pure,
            throw, throwThe, MonadExceptOf.throw]
        | some sel =>
          by_cases h3 : w.CheckCode
              (w.PlaymodeIntelligenceList p.intelligenceCalls sel.Id pl.PlaylistId).1 =
              CodeType.NeedLogin
          · simp only [Intelligence, extension, hd, h1, h2, hi, h3, if_true, if_false, pure,
              Except.pure]
          · by_cases h4 : w.CheckCode
                (w.PlaymodeIntelligenceList p.intelligenceCalls sel.Id pl.PlaylistId).1 ≠
                CodeType.Success
            · simp only [Intelligence, extension, hd, h1, h2, hi, h3, h4, if_true, if_false,
                pure, Except.pure, ne_eq, not_false_eq_true]
            · rw [ne_eq, not_not] at h4
              cases appendMode
              · simp only [Intelligence, extension, hd, h1, h2, hi, h3, h4, if_false, if_true,
                  pure, Except.pure, throw, throwThe, MonadExceptOf.throw, ne_eq,
                  not_true_eq_false, Bool.false_eq_true]
                cases index (sel ::
                  (w.PlaymodeIntelligenceList p.intelligenceCalls sel.Id pl.PlaylistId).2) 0 <;>
                  rfl
              · simp only [Intelligence, extension, hd, h1, h2, hi, h3, h4, if_false, if_true,
                  pure, Except.pure, throw, throwThe, MonadExceptOf.throw, ne_eq,
                  not_true_eq_false, Bool.false_eq_true]
                cases index (p.playlist ++
                  (w.PlaymodeIntelligenceList p.intelligenceCalls sel.Id pl.PlaylistId).2)
                  (p.curSongIndex + 1) <;> rfl

theorem NextSong_succ (w : World) (fuel : Nat) (p : Player) :
    NextSong w (fuel + 1) p =
      if p.playlist.length = 0 ∨ p.curSongIndex ≥ p.len - 1 then
        if p.mode = PmIntelligent then
          match Intelligence w fuel p true with
          | Except.error e => Except.error e
          | Except.ok q => nextTail w fuel (bottomOut w q)
        else nextTail w fuel (bottomOut w p)
      else nextTail w fuel p := by
  by_cases hI : p.mode = PmIntelligent
  · simp only [NextSong, nextTail, hI, if_true, bind, Except.bind, pure, Except.pure]
    split_ifs
    · cases Intelligence w fuel p true with
      | error e => rfl
      | ok q =>
        simp only
        cases nextSwitch w (bottomOut w q) with
        | error e => rfl
        | ok v => cases v <;> rfl
    · cases nextSwitch w p with
      | error e => rfl
      | ok v => cases v <;> rfl
  · rw [NextSong_succ_of_ne w fuel p hI, nextPre, declined_of_ne w p hI]
    simp only [hI, if_false]
    split_ifs <;> rfl

theorem PreviousSong_succ (w : World) (fuel : Nat) (p : Player) :
    PreviousSong w (fuel + 1) p =
      if p.playlist.length = 0 ∨ p.curSongIndex ≥ p.len - 1 then
        if p.mode = PmIntelligent then
          match Intelligence w fuel p true with
          | Except.error e => Except.error e
          | Except.ok q => prevTail w fuel (topOut w q)
        else prevTail w fuel (topOut w p)
      else prevTail w fuel p := by
  by_cases hI : p.mode = PmIntelligent
  · simp only [PreviousSong, prevTail, hI, if_true, bind, Except.bind, pure, Except.pure]
    split_ifs
    · cases Intelligence w fuel p true with
      | error e => rfl
      | ok q =>
        simp only
        cases prevSwitch w (topOut w q) with
        | error e => rfl
        | ok v => cases v <;> rfl
    · cases prevSwitch w p with
      | error e => rfl
      | ok v => cases v <;> rfl
  · rw [PreviousSong_succ_of_ne w fuel p hI, prevPre, declined_of_ne w p hI]
    simp only [hI, if_false]
    split_ifs <;> rfl

/-! ## Intelligent mode is kept -/

theorem NextSong_zero (w : World) (p : Player) :
    NextSong w 0 p = Except.error Fault.outOfFuel := by
  rw [NextSong]; rfl

theorem PreviousSong_zero (w : World) (p : Player) :
    PreviousSong w 0 p = Except.error Fault.outOfFuel := by
  rw [PreviousSong]; rfl

theorem Intelligence_zero (w : World) (p : Player) (b : Bool) :
    Intelligence w 0 p b = Except.error Fault.outOfFuel := by
  rw [Intelligence]; rfl

theorem nextTail_mode (w : World) (fuel : Nat)
    (hP : ∀ p s d q, p.mode = PmIntelligent → final (PlaySong w fuel p s d) = some q →
      q.mode = PmIntelligent)
    (p q : Player) (hI : p.mode = PmIntelligent) (h : final (nextTail w fuel p) = some q) :
    q.mode = PmIntelligent := by
  rw [nextTail, nextSwitch_loop w p (Or.inr hI)] at h
  simp only at h
  split_ifs at h
  all_goals
    first
    | (simp only [final, Option.some.injEq] at h; rw [← h]; exact hI)
    | (split at h
       · simp only [final, Option.some.injEq] at h; rw [← h]; exact hI
       · refine hP _ _ _ _ ?_ h; exact hI)

theorem prevTail_mode (w : World) (fuel : Nat)
    (hP : ∀ p s d q, p.mode = PmIntelligent → final (PlaySong w fuel p s d) = some q →
      q.mode = PmIntelligent)
    (p q : Player) (hI : p.mode = PmIntelligent) (h : final (prevTail w fuel p) = some q) :
    q.mode = PmIntelligent := by
  rw [prevTail, prevSwitch_loop w p (Or.inr hI)] at h
  simp only at h
  split_ifs at h
  all_goals
    first
    | (simp only [final, Option.some.injEq] at h; rw [← h]; exact hI)
    | (split at h
       · simp only [final, Option.some.injEq] at h; rw [← h]; exact hI
       · refine hP _ _ _ _ ?_ h; exact hI)

theorem bottomOut_mode (w : World) (p : Player) : (bottomOut w p).mode = p.mode := by
  obtain ⟨m, pl, c, hm⟩ := bottomOut_eq w p
  rw [hm]

theorem topOut_mode (w : World) (p : Player) : (topOut w p).mode = p.mode := by
  obtain ⟨m, pl, c, hm⟩ := topOut_eq w p
  rw [hm]

theorem mode_kept (w : World) : ∀ fuel : Nat,
    (∀ p s d q, p.mode = PmIntelligent → final (PlaySong w fuel p s d) = some q →
      q.mode = PmIntelligent) ∧
    (∀ p q, p.mode = PmIntelligent → final (NextSong w fuel p) = some q →
      q.mode = PmIntelligent) ∧
    (∀ p q, p.mode = PmIntelligent → final (PreviousSong w fuel p) = some q →
      q.mode = PmIntelligent) ∧
    (∀ p b q, p.mode = PmIntelligent → final (Intelligence w fuel p b) = some q →
      q.mode = PmIntelligent) := by
  intro fuel
  induction fuel with
  | zero =>
    refine ⟨?_, ?_, ?_, ?_⟩
    · intro p s d q _ h; rw [PlaySong_zero] at h; cases h
    · intro p q _ h; rw [NextSong_zero] at h; cases h
    · intro p q _ h; rw [PreviousSong_zero] at h; cases h
    · intro p b q _ h; rw [Intelligence_zero] at h; cases h
  | succ f ih =>
    obtain ⟨hP, hN, hV, hX⟩ := ih
    refine ⟨?_, ?_, ?_, ?_⟩
    · intro p s d q hI h
      rw [PlaySong_succ] at h
      obtain ⟨m1, e1⟩ := playSongEnter_eq w p s d
      obtain ⟨m2, e2⟩ := playSongFail_enter w p s d
      obtain ⟨m3, tr, e3, _, _⟩ := playSongOk_enter w p s d
        ((w.SongUrl p.urlCalls s.Id).url.getD "")
        (ToLower ((w.SongUrl p.urlCalls s.Id).musicType.getD ""))
      split_ifs at h
      · simp only [final, Option.some.injEq] at h; rw [← h, e1]; exact hI
      · simp only [final, Option.some.injEq] at h; rw [← h, e2]; exact hI
      · have hq2 : (playSongFail (playSongEnter w p s d)).mode = PmIntelligent := by
          rw [e2]; exact hI
        cases d
        · exact hN _ _ hq2 h
        · exact hV _ _ hq2 h
      · simp only [final, Option.some.injEq] at h; rw [← h, e3]; exact hI
    · intro p q hI h
      rw [NextSong_succ] at h
      simp only [hI, if_true] at h
      split_ifs at h
      · cases hint : Intelligence w f p true with
        | error e =>
          rw [hint] at h
          exact hX p true q hI (by rw [hint]; exact h)
        | ok q1 =>
          rw [hint] at h
          have hq1 : q1.mode = PmIntelligent := hX p true q1 hI (by rw [hint]; rfl)
          exact nextTail_mode w f hP _ q ((bottomOut_mode w q1).trans hq1) h
      · exact nextTail_mode w f hP p q hI h
    · intro p q hI h
      rw [PreviousSong_succ] at h
      simp only [hI, if_true] at h
      split_ifs at h
      · cases hint : Intelligence w f p true with
        | error e =>
          rw [hint] at h
          exact hX p true q hI (by rw [hint]; exact h)
        | ok q1 =>
          rw [hint] at h
          have hq1 : q1.mode = PmIntelligent := hX p true q1 hI (by rw [hint]; rfl)
          exact prevTail_mode w f hP _ q ((topOut_mode w q1).trans hq1) h
      · exact prevTail_mode w f hP p q hI h
    · intro p b q hI h
      rw [Intelligence_succ] at h
      obtain ⟨hok, herr⟩ := extension_mode w p b hI
      cases hx : extension w p b with
      | error e =>
        rw [hx] at h
        obtain ⟨q1, he, hq1⟩ := herr e hx
        subst he
        simp only [final, Option.some.injEq] at h
        rw [← h]; exact hq1
      | ok v =>
        obtain ⟨q1, os⟩ := v
        rw [hx] at h
        have hq1 := hok q1 os hx
        cases os with
        | none =>
          simp only [final, Option.some.injEq] at h
          rw [← h]; exact hq1
        | some s => exact hP _ _ _ _ hq1 h

/-- C10 fails as stated: from Intelligent mode the auto-cycle
`SetPlayMode("")` takes the `default` branch and leaves the mode ListLoop, not
Intelligent. -/
theorem intelligent_cycle_counterexample :
    (mkPlayer mainMenu [songA] 0 PmIntelligent).mode = PmIntelligent ∧
    (SetPlayMode (mkPlayer mainMenu [songA] 0 PmIntelligent) "").mode = PmListLoop ∧
    (SetPlayMode (mkPlayer mainMenu [songA] 0 PmIntelligent) "").mode ≠ PmIntelligent := by
  decide

/-- C10, amended: for every player state whose mode is Intelligent, the
auto-cycle `SetPlayMode("")` sets the mode to ListLoop, and `NextSong` and
`PreviousSong` never change the mode away from Intelligent: whatever state
they end in, by a return or by a panic, has mode Intelligent. -/
theorem intelligent_mode_exit (p : Player) (hI : p.mode = PmIntelligent) :
    (SetPlayMode p "").mode = PmListLoop ∧
    (∀ (w : World) (fuel : Nat) (q : Player),
      final (NextSong w fuel p) = some q → q.mode = PmIntelligent) ∧
    (∀ (w : World) (fuel : Nat) (q : Player),
      final (PreviousSong w fuel p) = some q → q.mode = PmIntelligent) := by
  refine ⟨?_, fun w fuel q h => (mode_kept w fuel).2.1 p q hI h,
    fun w fuel q h => (mode_kept w fuel).2.2.1 p q hI h⟩
  have h1 : PmIntelligent ≠ PmListLoop := by decide
  have h2 : PmIntelligent ≠ PmOrder := by decide
  have h3 : PmIntelligent ≠ PmSingleLoop := by decide
  have h4 : PmIntelligent ≠ PmRandom := by decide
  simp [SetPlayMode, hI, h1, h2, h3, h4]

/-- Witness of C10: Intelligent mode on `[A]` in a playlist detail menu; the
run of `NextSong` extends the list, plays twice and ends in Intelligent
mode. -/
theorem intelligent_mode_exit_witness :
    (SetPlayMode (mkPlayer detailMenu [songA] 0 PmIntelligent) "").mode = PmListLoop ∧
    (∀ q, final (NextSong wGood 8 (mkPlayer detailMenu [songA] 0 PmIntelligent)) = some q →
      q.mode = PmIntelligent) ∧
    (∀ q, final (PreviousSong wGood 8 (mkPlayer detailMenu [songA] 0 PmIntelligent)) = some q →
      q.mode = PmIntelligent) ∧
    ((final (NextSong wGood 8 (mkPlayer detailMenu [songA] 0 PmIntelligent))).map
      fun q => (q.mode, q.playlist.length, attempts q.trace)) = some (PmIntelligent, 3, 2) :=
  ⟨(intelligent_mode_exit (mkPlayer detailMenu [songA] 0 PmIntelligent) rfl).1,
   (intelligent_mode_exit (mkPlayer detailMenu [songA] 0 PmIntelligent) rfl).2.1 wGood 8,
   (intelligent_mode_exit (mkPlayer detailMenu [songA] 0 PmIntelligent) rfl).2.2 wGood 8,
   by decide!⟩

/-! ## The loop modes -/

theorem wrap_next (c n : Int) (h0 : 0 ≤ c) (h1 : c < n) :
    (if c + 1 > n - 1 then 0 else c + 1) = (c + 1) % n := by
  split_ifs with h
  · have : c + 1 = n := by omega
    rw [this, Int.emod_self]
  · rw [Int.emod_eq_of_lt (by omega) (by omega)]

theorem wrap_prev (c n : Int) (h0 : 0 ≤ c) (h1 : c < n) :
    (if c - 1 < 0 then n - 1 else c - 1) = (c - 1 + n) % n := by
  split_ifs with h
  · have : c = 0 := by omega
    rw [this, Int.emod_eq_of_lt (by omega) (by omega)]
    ring
  · rw [Int.add_emod_self, Int.emod_eq_of_lt (by omega) (by omega)]

theorem nextTail_loop (w : World) (f : Nat) (p : Player)
    (hm : p.mode = PmListLoop ∨ p.mode = PmIntelligent) (h0 : 0 ≤ p.curSongIndex)
    (h1 : p.curSongIndex < p.playlist.length) :
    ∃ song, index p.playlist ((p.curSongIndex + 1) % p.playlist.length) = some song ∧
      nextTail w f p = PlaySong w f
        { p with curSongIndex := (p.curSongIndex + 1) % p.playlist.length } song
        PlayDirection.DurationNext := by
  have hw := wrap_next p.curSongIndex p.playlist.length h0 h1
  have hr0 : 0 ≤ (p.curSongIndex + 1) % (p.playlist.length : Int) :=
    Int.emod_nonneg _ (by omega)
  have hr1 : (p.curSongIndex + 1) % (p.playlist.length : Int) < p.playlist.length :=
    Int.emod_lt_of_pos _ (by omega)
  obtain ⟨song, hs⟩ := index_some p.playlist _ hr0 hr1
  refine ⟨song, hs, ?_⟩
  rw [nextTail, nextSwitch_loop w p hm]
  simp only [Player.len, hw]
  rw [if_neg (by omega)]
  simp only [hs]

theorem prevTail_loop (w : World) (f : Nat) (p : Player)
    (hm : p.mode = PmListLoop ∨ p.mode = PmIntelligent) (h0 : 0 ≤ p.curSongIndex)
    (h1 : p.curSongIndex < p.playlist.length) :
    ∃ song, index p.playlist ((p.curSongIndex - 1 + p.playlist.length) % p.playlist.length) =
        some song ∧
      prevTail w f p = PlaySong w f
        { p with curSongIndex :=
          (p.curSongIndex - 1 + p.playlist.length) % p.playlist.length } song
        PlayDirection.DurationPrev := by
  have hw := wrap_prev p.curSongIndex p.playlist.length h0 h1
  have hr0 : 0 ≤ (p.curSongIndex - 1 + p.playlist.length) % (p.playlist.length : Int) :=
    Int.emod_nonneg _ (by omega)
  have hr1 : (p.curSongIndex - 1 + p.playlist.length) % (p.playlist.length : Int) <
      p.playlist.length := Int.emod_lt_of_pos _ (by omega)
  obtain ⟨song, hs⟩ := index_some p.playlist _ hr0 hr1
  refine ⟨song, hs, ?_⟩
  rw [prevTail, prevSwitch_loop w p hm]
  simp only [Player.len, hw]
  rw [if_neg (by omega)]
  simp only [hs]

theorem nextTail_single (w : World) (f : Nat) (p : Player) (hm : p.mode = PmSingleLoop)
    (h0 : 0 ≤ p.curSongIndex) (h1 : p.curSongIndex < p.playlist.length) :
    ∃ song, index p.playlist p.curSongIndex = some song ∧
      nextTail w f p = PlaySong w f p song PlayDirection.DurationNext := by
  obtain ⟨song, hs⟩ := index_some p.playlist _ h0 h1
  refine ⟨song, hs, ?_⟩
  rw [nextTail, nextSwitch_single w p hm]
  simp only [Player.len]
  rw [if_neg (by omega)]
  simp only [hs]

theorem prevTail_single (w : World) (f : Nat) (p : Player) (hm : p.mode = PmSingleLoop)
    (h0 : 0 ≤ p.curSongIndex) (h1 : p.curSongIndex < p.playlist.length) :
    ∃ song, index p.playlist p.curSongIndex = some song ∧
      prevTail w f p = PlaySong w f p song PlayDirection.DurationPrev := by
  obtain ⟨song, hs⟩ := index_some p.playlist _ h0 h1
  refine ⟨song, hs, ?_⟩
  rw [prevTail, prevSwitch_single w p hm]
  simp only
  rw [if_neg (by omega)]
  simp only [hs]

theorem declined_of_none (w : World) (p q : Player) (hI : p.mode = PmIntelligent)
    (hq : extension w p true = Except.ok (q, none)) : declined w p = q := by
  unfold declined
  rw [if_pos hI, hq]

/-- With no Intelligent extension, `NextSong` is its tail run on the state
after the boundary block. -/
theorem NextSong_noExtension (w : World) (f : Nat) (p : Player) (hx : noExtension w p) :
    NextSong w (f + 2) p = nextTail w (f + 1) (nextPre w p) := by
  rw [NextSong_succ, nextPre]
  by_cases hb : p.playlist.length = 0 ∨ p.curSongIndex ≥ p.len - 1
  · rw [if_pos hb, if_pos hb]
    by_cases hI : p.mode = PmIntelligent
    · rw [if_pos hI]
      obtain ⟨q, hq⟩ := hx hI hb
      rw [Intelligence_succ, hq, declined_of_none w p q hI hq]
    · rw [if_neg hI, declined_of_ne w p hI]
  · rw [if_neg hb, if_neg hb]

theorem PreviousSong_noExtension (w : World) (f : Nat) (p : Player) (hx : noExtension w p) :
    PreviousSong w (f + 2) p = prevTail w (f + 1) (prevPre w p) := by
  rw [PreviousSong_succ, prevPre]
  by_cases hb : p.playlist.length = 0 ∨ p.curSongIndex ≥ p.len - 1
  · rw [if_pos hb, if_pos hb]
    by_cases hI : p.mode = PmIntelligent
    · rw [if_pos hI]
      obtain ⟨q, hq⟩ := hx hI hb
      rw [Intelligence_succ, hq, declined_of_none w p q hI hq]
    · rw [if_neg hI, declined_of_ne w p hI]
  · rw [if_neg hb, if_neg hb]

theorem PlaySong_playable (w : World) (f : Nat) (q : Player) (s : Song) (d : PlayDirection)
    (h : playable (w.SongUrl q.urlCalls s.Id)) :
    ∃ r, PlaySong w (f + 1) q s d = Except.ok r ∧ r.curSongIndex = q.curSongIndex ∧
      r.playlist = q.playlist ∧ r.mode = q.mode ∧ r.playErrCount = 0 := by
  obtain ⟨m3, tr, e3, _, _⟩ := playSongOk_enter w q s d
    ((w.SongUrl q.urlCalls s.Id).url.getD "")
    (ToLower ((w.SongUrl q.urlCalls s.Id).musicType.getD ""))
  refine ⟨playSongOk (playSongEnter w q s d) s ((w.SongUrl q.urlCalls s.Id).url.getD "")
    (ToLower ((w.SongUrl q.urlCalls s.Id).musicType.getD "")), ?_, by rw [e3], by rw [e3],
    by rw [e3], by rw [e3]⟩
  rw [PlaySong_succ, if_neg (by rw [h.1]; simp), if_neg (by rw [h.2]; simp)]

/-- C6 fails as stated: in Intelligent mode on `[A]` with cursor 0, a
recommendation service that returns `[B, C]` and a resolver that accepts every
track, `NextSong` plays B at cursor 1 and then C at cursor 2 and leaves the
cursor at 2, which is neither `(0 + 1) mod 1 = 0` nor `(0 + 1) mod 3 = 1`. -/
theorem loop_advance_counterexample :
    ((final (NextSong wGood 8 (mkPlayer detailMenu [songA] 0 PmIntelligent))).map
      fun q => (q.curSongIndex, q.playlist, q.trace)) =
      some (2, [songA, songB, songC],
        [Event.playSong 1 songB PlayDirection.DurationNext, Event.play SongType.Mp3 "u" 150,
         Event.playSong 2 songC PlayDirection.DurationNext, Event.play SongType.Mp3 "u" 100]) ∧
    ((0 : Int) + 1) % 1 ≠ 2 ∧ ((0 : Int) + 1) % 3 ≠ 2 := by
  refine ⟨by decide!, by decide, by decide⟩

/-- C6, amended: in ListLoop mode, and in Intelligent mode when no Intelligent
extension takes place, for every playlist of length `len` and every in-range
cursor, when the menu movement or hook of the boundary block leaves playlist
and cursor as they were, `NextSong` sets the cursor to `(cursor + 1) mod len`
and `PreviousSong` sets it to `(cursor - 1 + len) mod len`, and `PlaySong` is
then entered on the track at the new cursor, with playlist, mode, trace and
error counter as they were. -/
theorem loop_advance (w : World) (fuel : Nat) (p : Player)
    (hm : p.mode = PmListLoop ∨ p.mode = PmIntelligent) (h0 : 0 ≤ p.curSongIndex)
    (h1 : p.curSongIndex < p.playlist.length) (hx : noExtension w p) :
    (undisturbed p (nextPre w p) →
      ∃ q song, q.curSongIndex = (p.curSongIndex + 1) % p.playlist.length ∧
        q.playlist = p.playlist ∧ q.mode = p.mode ∧ q.trace = p.trace ∧
        q.playErrCount = p.playErrCount ∧ index q.playlist q.curSongIndex = some song ∧
        NextSong w (fuel + 2) p = PlaySong w (fuel + 1) q song PlayDirection.DurationNext) ∧
    (undisturbed p (prevPre w p) →
      ∃ q song,
        q.curSongIndex = (p.curSongIndex - 1 + p.playlist.length) % p.playlist.length ∧
        q.playlist = p.playlist ∧ q.mode = p.mode ∧ q.trace = p.trace ∧
        q.playErrCount = p.playErrCount ∧ index q.playlist q.curSongIndex = some song ∧
        PreviousSong w (fuel + 2) p =
          PlaySong w (fuel + 1) q song PlayDirection.DurationPrev) := by
  constructor
  · intro hu
    obtain ⟨hmo, htr, hcnt, _⟩ := nextPre_frame w p
    obtain ⟨song, hs, ht⟩ := nextTail_loop w (fuel + 1) (nextPre w p) (by rw [hmo]; exact hm)
      (by rw [hu.2]; exact h0) (by rw [hu.2, hu.1]; exact h1)
    refine ⟨{ nextPre w p with curSongIndex :=
      ((nextPre w p).curSongIndex + 1) % (nextPre w p).playlist.length }, song, ?_, hu.1, hmo,
      htr, hcnt, hs, (NextSong_noExtension w fuel p hx).trans ht⟩
    show ((nextPre w p).curSongIndex + 1) % ((nextPre w p).playlist.length : Int) = _
    rw [hu.2, hu.1]
  · intro hu
    obtain ⟨hmo, htr, hcnt, _⟩ := prevPre_frame w p
    obtain ⟨song, hs, ht⟩ := prevTail_loop w (fuel + 1) (prevPre w p) (by rw [hmo]; exact hm)
      (by rw [hu.2]; exact h0) (by rw [hu.2, hu.1]; exact h1)
    refine ⟨{ prevPre w p with curSongIndex :=
      ((prevPre w p).curSongIndex - 1 + (prevPre w p).playlist.length) %
        (prevPre w p).playlist.length }, song, ?_, hu.1, hmo,
      htr, hcnt, hs, (PreviousSong_noExtension w fuel p hx).trans ht⟩
    show ((prevPre w p).curSongIndex - 1 + ((prevPre w p).playlist.length : Int)) %
      ((prevPre w p).playlist.length : Int) = _
    rw [hu.2, hu.1]

/-- Witness of C6: the playlist `[A, B]` in ListLoop mode with the cursor on
the last track and menu movements that change nothing; `NextSong` ends with
the cursor at 0 after entering `PlaySong` on A.  The same holds in Intelligent
mode outside a playlist detail menu, where `Intelligence(true)` gives up. -/
theorem loop_advance_witness :
    ((∃ q song, q.curSongIndex = ((1 : Int) + 1) % ([songA, songB].length : Int) ∧
      q.playlist = [songA, songB] ∧ q.mode = PmListLoop ∧ q.trace = [] ∧
      q.playErrCount = 0 ∧ index q.playlist q.curSongIndex = some song ∧
      NextSong wGood (0 + 2) (mkPlayer mainMenu [songA, songB] 1 PmListLoop) =
        PlaySong wGood (0 + 1) q song PlayDirection.DurationNext) ∧
    (∃ q song, q.curSongIndex = ((1 : Int) - 1 + ([songA, songB].length : Int)) %
        ([songA, songB].length : Int) ∧
      q.playlist = [songA, songB] ∧ q.mode = PmListLoop ∧ q.trace = [] ∧
      q.playErrCount = 0 ∧ index q.playlist q.curSongIndex = some song ∧
      PreviousSong wGood (0 + 2) (mkPlayer mainMenu [songA, songB] 1 PmListLoop) =
        PlaySong wGood (0 + 1) q song PlayDirection.DurationPrev)) ∧
    ((final (NextSong wGood 2 (mkPlayer mainMenu [songA, songB] 1 PmListLoop))).map
      fun q => (q.curSongIndex, q.trace)) =
      some (0, [Event.playSong 0 songA PlayDirection.DurationNext,
        Event.play SongType.Mp3 "u" 200]) ∧
    (∃ q song, q.curSongIndex = ((1 : Int) + 1) % ([songA, songB].length : Int) ∧
      q.playlist = [songA, songB] ∧ q.mode = PmIntelligent ∧ q.trace = [] ∧
      q.playErrCount = 0 ∧ index q.playlist q.curSongIndex = some song ∧
      NextSong wGood (0 + 2) (mkPlayer mainMenu [songA, songB] 1 PmIntelligent) =
        PlaySong wGood (0 + 1) q song PlayDirection.DurationNext) :=
  ⟨⟨(loop_advance wGood 0 (mkPlayer mainMenu [songA, songB] 1 PmListLoop) (Or.inl rfl)
      (by decide) (by decide) (fun h => absurd h (by decide))).1 ⟨by decide!, by decide!⟩,
    (loop_advance wGood 0 (mkPlayer mainMenu [songA, songB] 1 PmListLoop) (Or.inl rfl)
      (by decide) (by decide) (fun h => absurd h (by decide))).2 ⟨by decide!, by decide!⟩⟩,
   by decide!,
   (loop_advance wGood 0 (mkPlayer mainMenu [songA, songB] 1 PmIntelligent) (Or.inr rfl)
    (by decide) (by decide)
    (fun _ _ => ⟨mkPlayer mainMenu [songA, songB] 1 PmIntelligent, rfl⟩)).1
    ⟨by decide!, by decide!⟩⟩

/-! ## Next followed by Previous -/

theorem wrap_roundtrip (c n : Int) (h0 : 0 ≤ c) (h1 : c < n) :
    ((c + 1) % n - 1 + n) % n = c := by
  have hr0 : 0 ≤ (c + 1) % n := Int.emod_nonneg _ (by omega)
  have hr1 : (c + 1) % n < n := Int.emod_lt_of_pos _ (by omega)
  rw [← wrap_prev ((c + 1) % n) n hr0 hr1, ← wrap_next c n h0 h1]
  split_ifs <;> omega

theorem NextSong_played (w : World) (f : Nat) (p : Player)
    (hm : p.mode = PmListLoop ∨ p.mode = PmSingleLoop ∨ p.mode = PmIntelligent)
    (h0 : 0 ≤ p.curSongIndex) (h1 : p.curSongIndex < p.playlist.length)
    (hplay : ∀ n id, playable (w.SongUrl n id)) (hx : noExtension w p)
    (hu : undisturbed p (nextPre w p)) :
    ∃ p1, NextSong w (f + 2) p = Except.ok p1 ∧ p1.playlist = p.playlist ∧ p1.mode = p.mode ∧
      p1.curSongIndex =
        if p.mode = PmSingleLoop then p.curSongIndex
        else (p.curSongIndex + 1) % p.playlist.length := by
  have hN := NextSong_noExtension w f p hx
  obtain ⟨hmo, _, _, _⟩ := nextPre_frame w p
  have h0' : 0 ≤ (nextPre w p).curSongIndex := by rw [hu.2]; exact h0
  have h1' : (nextPre w p).curSongIndex < (nextPre w p).playlist.length := by
    rw [hu.2, hu.1]; exact h1
  by_cases hs : p.mode = PmSingleLoop
  · obtain ⟨song, _, ht⟩ := nextTail_single w (f + 1) (nextPre w p) (hmo.trans hs) h0' h1'
    obtain ⟨r, hr, hc, hp, hmd, _⟩ := PlaySong_playable w f (nextPre w p) song
      PlayDirection.DurationNext (hplay _ _)
    exact ⟨r, hN.trans (ht.trans hr), hp.trans hu.1, hmd.trans hmo,
      by rw [if_pos hs]; exact hc.trans hu.2⟩
  · have hl : (nextPre w p).mode = PmListLoop ∨ (nextPre w p).mode = PmIntelligent := by
      rw [hmo]
      rcases hm with h | h | h
      · exact Or.inl h
      · exact absurd h hs
      · exact Or.inr h
    obtain ⟨song, _, ht⟩ := nextTail_loop w (f + 1) (nextPre w p) hl h0' h1'
    obtain ⟨r, hr, hc, hp, hmd, _⟩ := PlaySong_playable w f _ song
      PlayDirection.DurationNext (hplay _ _)
    refine ⟨r, hN.trans (ht.trans hr), hp.trans hu.1, hmd.trans hmo, ?_⟩
    rw [if_neg hs, hc]
    show ((nextPre w p).curSongIndex + 1) %
      (((nextPre w p).playlist.length : Nat) : Int) = _
    rw [hu.2, hu.1]

theorem PreviousSong_played (w : World) (f : Nat) (p : Player)
    (hm : p.mode = PmListLoop ∨ p.mode = PmSingleLoop ∨ p.mode = PmIntelligent)
    (h0 : 0 ≤ p.curSongIndex) (h1 : p.curSongIndex < p.playlist.length)
    (hplay : ∀ n id, playable (w.SongUrl n id)) (hx : noExtension w p)
    (hu : undisturbed p (prevPre w p)) :
    ∃ p1, PreviousSong w (f + 2) p = Except.ok p1 ∧ p1.playlist = p.playlist ∧ p1.mode = p.mode ∧
      p1.curSongIndex =
        if p.mode = PmSingleLoop then p.curSongIndex
        else (p.curSongIndex - 1 + p.playlist.length) % p.playlist.length := by
  have hN := PreviousSong_noExtension w f p hx
  obtain ⟨hmo, _, _, _⟩ := prevPre_frame w p
  have h0' : 0 ≤ (prevPre w p).curSongIndex := by rw [hu.2]; exact h0
  have h1' : (prevPre w p).curSongIndex < (prevPre w p).playlist.length := by
    rw [hu.2, hu.1]; exact h1
  by_cases hs : p.mode = PmSingleLoop
  · obtain ⟨song, _, ht⟩ := prevTail_single w (f + 1) (prevPre w p) (hmo.trans hs) h0' h1'
    obtain ⟨r, hr, hc, hp, hmd, _⟩ := PlaySong_playable w f (prevPre w p) song
      PlayDirection.DurationPrev (hplay _ _)
    exact ⟨r, hN.trans (ht.trans hr), hp.trans hu.1, hmd.trans hmo,
      by rw [if_pos hs]; exact hc.trans hu.2⟩
  · have hl : (prevPre w p).mode = PmListLoop ∨ (prevPre w p).mode = PmIntelligent := by
      rw [hmo]
      rcases hm with h | h | h
      · exact Or.inl h
      · exact absurd h hs
      · exact Or.inr h
    obtain ⟨song, _, ht⟩ := prevTail_loop w (f + 1) (prevPre w p) hl h0' h1'
    obtain ⟨r, hr, hc, hp, hmd, _⟩ := PlaySong_playable w f _ song
      PlayDirection.DurationPrev (hplay _ _)
    refine ⟨r, hN.trans (ht.trans hr), hp.trans hu.1, hmd.trans hmo, ?_⟩
    rw [if_neg hs, hc]
    show ((prevPre w p).curSongIndex - 1 + (prevPre w p).playlist.length) %
      (((prevPre w p).playlist.length : Nat) : Int) = _
    rw [hu.2, hu.1]

theorem playable_good : playable good := ⟨by decide, by decide⟩

/-- C5 fails as stated: in Random mode on `[A, B, C]` with cursor 0 and a
random source that yields 1, `NextSong` followed by `PreviousSong` (every
track resolves, the playlist is unchanged) leaves the cursor at 1, not 0. -/
theorem roundtrip_random_counterexample :
    ((final ((NextSong wGood 8 (mkPlayer mainMenu [songA, songB, songC] 0 PmRandom)).bind
      (PreviousSong wGood 8))).map fun q => (q.curSongIndex, q.playlist, q.playErrCount)) =
      some (1, [songA, songB, songC], 0) ∧
    (mkPlayer mainMenu [songA, songB, songC] 0 PmRandom).curSongIndex = 0 := by
  refine ⟨by decide!, rfl⟩

/-- C5, amended: for every non-empty playlist, every in-range cursor and each
of the modes ListLoop, SingleLoop and Intelligent, when every `PlaySong`
succeeds and no boundary side effect changes playlist or cursor in between (no
Intelligent extension takes place, and the menu movement or hook of the
boundary block leaves playlist and cursor as they were), `NextSong` returns
with the playlist and the mode unchanged, and `PreviousSong` from the state it
returns leaves the cursor equal to its original value. -/
theorem next_previous_roundtrip (w : World) (fuel : Nat) (p : Player)
    (hm : p.mode = PmListLoop ∨ p.mode = PmSingleLoop ∨ p.mode = PmIntelligent)
    (h0 : 0 ≤ p.curSongIndex) (h1 : p.curSongIndex < p.playlist.length)
    (hplay : ∀ n id, playable (w.SongUrl n id)) (hx : noExtension w p)
    (hu : undisturbed p (nextPre w p)) (hf : 2 ≤ fuel) :
    ∃ p1, NextSong w fuel p = Except.ok p1 ∧ p1.playlist = p.playlist ∧ p1.mode = p.mode ∧
      (noExtension w p1 → undisturbed p1 (prevPre w p1) →
        ∃ p2, PreviousSong w fuel p1 = Except.ok p2 ∧ p2.curSongIndex = p.curSongIndex ∧
          p2.playlist = p.playlist) := by
  obtain ⟨f, rfl⟩ : ∃ f, fuel = f + 2 := ⟨fuel - 2, by omega⟩
  obtain ⟨p1, hN, hpl, hmo, hc⟩ := NextSong_played w f p hm h0 h1 hplay hx hu
  refine ⟨p1, hN, hpl, hmo, fun hx1 hu1 => ?_⟩
  have hlen : (0 : Int) < p.playlist.length := by omega
  have hr0 : 0 ≤ (p.curSongIndex + 1) % (p.playlist.length : Int) :=
    Int.emod_nonneg _ (by omega)
  have hr1 : (p.curSongIndex + 1) % (p.playlist.length : Int) < p.playlist.length :=
    Int.emod_lt_of_pos _ hlen
  have h0' : 0 ≤ p1.curSongIndex := by rw [hc]; split_ifs <;> assumption
  have h1' : p1.curSongIndex < p1.playlist.length := by
    rw [hc, hpl]; split_ifs <;> assumption
  obtain ⟨p2, hP, hpl2, _, hc2⟩ := PreviousSong_played w f p1 (by rw [hmo]; exact hm) h0' h1'
    hplay hx1 hu1
  refine ⟨p2, hP, ?_, hpl2.trans hpl⟩
  rw [hc2, hmo, hc, hpl]
  split_ifs
  · rfl
  · exact wrap_roundtrip _ _ h0 h1

/-- Witness of C5: ListLoop on `[A, B]` from the last track, with menu
movements that change nothing: `NextSong` wraps to 0 and `PreviousSong` comes
back to 1. -/
theorem next_previous_roundtrip_witness :
    (∃ p1, NextSong wGood 2 (mkPlayer mainMenu [songA, songB] 1 PmListLoop) = Except.ok p1 ∧
      p1.playlist = [songA, songB] ∧ p1.mode = PmListLoop ∧
      (noExtension wGood p1 → undisturbed p1 (prevPre wGood p1) →
        ∃ p2, PreviousSong wGood 2 p1 = Except.ok p2 ∧ p2.curSongIndex = 1 ∧
          p2.playlist = [songA, songB])) ∧
    ((final ((NextSong wGood 2 (mkPlayer mainMenu [songA, songB] 1 PmListLoop)).bind
      (PreviousSong wGood 2))).map fun q => q.curSongIndex) = some 1 :=
  ⟨next_previous_roundtrip wGood 2 (mkPlayer mainMenu [songA, songB] 1 PmListLoop)
    (Or.inl rfl) (by decide) (by decide) (fun _ _ => playable_good)
    (fun h => absurd h (by decide)) ⟨by decide!, by decide!⟩ (by decide), by decide!⟩

/-! ## The cursor invariant -/

/-- C7 at its failing input: the playlist is `[A]` with the cursor at 0, so
`0 ≤ cursor < len` holds; the menu is a playlist detail view, the user is
logged in and the recommendation service answers with success and an empty
list.  `Intelligence(true)` then leaves the playlist `[A]`, moves the cursor to
1 and panics on `p.playlist[p.curSongIndex]`; `NextSong` in Intelligent mode
reaches the same panic. -/
theorem cursor_invariant_broken :
    (0 ≤ (mkPlayer detailMenu [songA] 0 PmListLoop).curSongIndex ∧
      (mkPlayer detailMenu [songA] 0 PmListLoop).curSongIndex <
        ((mkPlayer detailMenu [songA] 0 PmListLoop).playlist.length : Int)) ∧
    Intelligence wEmpty 8 (mkPlayer detailMenu [songA] 0 PmListLoop) true =
      Except.error (Fault.panic { mkPlayer detailMenu [songA] 0 PmListLoop with
        curSongIndex := 1, mode := PmIntelligent, playingMenuKey := "Intelligent",
        intelligenceCalls := 1 }) ∧
    NextSong wEmpty 8 (mkPlayer detailMenu [songA] 0 PmIntelligent) =
      Except.error (Fault.panic { mkPlayer detailMenu [songA] 0 PmIntelligent with
        curSongIndex := 1, playingMenuKey := "Intelligent", intelligenceCalls := 1 }) := by
  refine ⟨by decide, by decide!, by decide!⟩

end MusicFox
